import Mathlib

/-!
# Verification of the Bilka price-monitor discount anomaly analysis engine

Shallow embedding of the analysis modules `src/analysis/anomaly_detector.py`,
`src/analysis/price_validator.py` and `src/analysis/discount_analyzer.py`.

Modelling conventions:

* Python floats are modelled as real numbers (`ℝ`); a possibly missing value
  (pandas `NaN`, Python `None`) is `Option ℝ` with `none` for the missing
  value.  A pandas comparison whose operand is missing evaluates to `False`;
  the helper `otest` encodes this.
* Python truthiness of a numeric cell (`not x`) is falsity for `0.0`; a
  missing value read from a DataFrame row is `NaN`, which is truthy in
  Python, so only `some 0` is "falsy" for the detector guards (`falsy`).
* A DataFrame handed to the anomaly detector is a list of rows; the source's
  `if 'discount_percentage' not in df.columns` guard is subsumed, because a
  frame without the column behaves like one in which the column is all
  missing (both produce no discounted rows and hence no findings).
  For the discount analyzer, where the set of present columns is observable
  (`analyze_discounts` adds missing required columns to its *input* frame),
  a DataFrame is a list of column names together with the rows.
* Purely presentational fields (`description`, `evidence`, `suggestions`,
  `error_message`, `recommendation` strings) are not modelled; no analysed
  property mentions them.  Likewise `high_discount_products` and the
  `discount_severity` column of the discount analyzer are not modelled.
* Sums of floats are modelled as exact real sums; `round(x, 2)` is Python's
  round-half-to-even on the scaled value (`pyRound2`).
-/

namespace Bilka

open Classical

/-- A pandas comparison against a possibly missing value: any comparison with
`NaN` is false. -/
def otest (o : Option ℝ) (p : ℝ → Prop) : Prop :=
  match o with
  | some x => p x
  | none => False

/-- Python truthiness for a numeric DataFrame cell: `not x` holds for `0.0`
but not for `NaN` (which is truthy), so a guard `if not x: continue` skips
exactly the exact-zero cells. -/
def falsy (o : Option ℝ) : Prop := o = some 0

/-- Python float modulo (`a % b`) for positive `b`. -/
noncomputable def pymod (a b : ℝ) : ℝ := a - b * ⌊a / b⌋

/-- Python `round` to the nearest integer, halves to even (banker's
rounding), on the idealised real value. -/
noncomputable def pyRoundInt (x : ℝ) : ℤ :=
  if Int.fract x < 1 / 2 then ⌊x⌋
  else if 1 / 2 < Int.fract x then ⌊x⌋ + 1
  else if Even ⌊x⌋ then ⌊x⌋ else ⌊x⌋ + 1

/-- Python `round(x, 2)`. -/
noncomputable def pyRound2 (x : ℝ) : ℝ := (pyRoundInt (x * 100) : ℝ) / 100

/-- One DataFrame row of scraped product data.  `current_price` /
`original_price` are the columns read by the anomaly detector,
`regular_price` / `sale_price` those read by the discount analyzer and the
price validator. -/
structure Row where
  external_id : Option ℕ
  name : Option String
  category : Option String
  current_price : Option ℝ
  original_price : Option ℝ
  regular_price : Option ℝ
  sale_price : Option ℝ
  discount_percentage : Option ℝ

/-- `AnomalyDetector.__init__` configuration with its defaults. -/
structure Config where
  z_score_threshold : ℝ
  iqr_multiplier : ℝ
  min_confidence : ℝ

/-- The defaults `z_score_threshold = 2.5`, `iqr_multiplier = 1.5`,
`min_confidence = 0.6`. -/
noncomputable def defaultConfig : Config := ⟨2.5, 1.5, 0.6⟩

/-- The `AnomalyResult` dataclass (presentational string fields omitted). -/
structure AnomalyResult where
  product_name : String
  anomaly_type : String
  confidence_score : ℝ
  current_price : Option ℝ
  original_price : Option ℝ
  discount_percentage : Option ℝ

/-- `row.get('name', 'Unknown')` plus the payload fields every detector copies
into its `AnomalyResult`. -/
def mkFinding (atype : String) (conf : ℝ) (r : Row) : AnomalyResult :=
  ⟨r.name.getD "Unknown", atype, conf, r.current_price, r.original_price,
    r.discount_percentage⟩

/-- `df['discount_percentage'] > 0` for one row (false on a missing value). -/
def discountPos (r : Row) : Prop := otest r.discount_percentage (0 < ·)

/-- `df[df['discount_percentage'] > 0]`. -/
noncomputable def discountedOf (rows : List Row) : List Row :=
  rows.filter fun r => decide (discountPos r)

/-- The discount value of a row known to have one. -/
def dval (r : Row) : ℝ := r.discount_percentage.getD 0

/-- The discount series of the discounted rows. -/
noncomputable def discounts (rows : List Row) : List ℝ :=
  (discountedOf rows).map dval

/-- `Series.mean`. -/
noncomputable def rmean (xs : List ℝ) : ℝ := xs.sum / xs.length

/-- `Series.std() ** 2`: the sample variance with `ddof = 1` (division by
zero yields 0, matching "no finding" behaviour of the NaN it produces in
pandas). -/
noncomputable def sampleVar (xs : List ℝ) : ℝ :=
  (xs.map fun x => (x - rmean xs) ^ 2).sum / ((xs.length : ℝ) - 1)

/-- `discounted['discount_percentage'].mean()`. -/
noncomputable def meanDiscount (rows : List Row) : ℝ := rmean (discounts rows)

/-- `discounted['discount_percentage'].std()`. -/
noncomputable def stdDiscount (rows : List Row) : ℝ :=
  Real.sqrt (sampleVar (discounts rows))

/-- The Z-score `(discount - mean) / std` of one row. -/
noncomputable def zscore (rows : List Row) (r : Row) : ℝ :=
  (dval r - meanDiscount rows) / stdDiscount rows

/-- `AnomalyDetector._detect_zscore_anomalies`. -/
noncomputable def zscoreAnomalies (cfg : Config) (rows : List Row) :
    List AnomalyResult :=
  let discounted := discountedOf rows
  if discounted.length < 3 then []
  else if stdDiscount rows = 0 then []
  else
    (discounted.filter fun r =>
        decide (cfg.z_score_threshold < zscore rows r)).filterMap fun r =>
      let conf := min (|zscore rows r| / 5) 1
      if cfg.min_confidence ≤ conf then
        some (mkFinding "STATISTICAL_OUTLIER" conf r)
      else none

/-- Ascending insertion used to model the sort inside `Series.quantile`. -/
noncomputable def insertAsc (x : ℝ) : List ℝ → List ℝ
  | [] => [x]
  | y :: ys => if x ≤ y then x :: y :: ys else y :: insertAsc x ys

/-- Sort a series ascending. -/
noncomputable def sortAsc (xs : List ℝ) : List ℝ := xs.foldr insertAsc []

/-- `Series.quantile(q)` with pandas' default linear interpolation: with the
sorted values `s`, the quantile sits at position `h = (len - 1) * q`, between
`s[⌊h⌋]` and `s[⌊h⌋ + 1]`. -/
noncomputable def quantile (xs : List ℝ) (q : ℝ) : ℝ :=
  let s := sortAsc xs
  let h : ℝ := ((s.length : ℝ) - 1) * q
  let i : ℕ := (⌊h⌋).toNat
  let lo := s.getD i 0
  let hi := s.getD (i + 1) lo
  lo + (h - (i : ℝ)) * (hi - lo)

/-- `Q3 - Q1` of the discounted rows. -/
noncomputable def iqrOf (rows : List Row) : ℝ :=
  quantile (discounts rows) 0.75 - quantile (discounts rows) 0.25

/-- `Q3 + iqr_multiplier * IQR`. -/
noncomputable def iqrUpperBound (cfg : Config) (rows : List Row) : ℝ :=
  quantile (discounts rows) 0.75 + cfg.iqr_multiplier * iqrOf rows

/-- `AnomalyDetector._detect_iqr_anomalies`. -/
noncomputable def iqrAnomalies (cfg : Config) (rows : List Row) :
    List AnomalyResult :=
  let discounted := discountedOf rows
  if discounted.length < 4 then []
  else
    (discounted.filter fun r =>
        decide (iqrUpperBound cfg rows < dval r)).filterMap fun r =>
      let dev :=
        if 0 < iqrOf rows then (dval r - iqrUpperBound cfg rows) / iqrOf rows
        else 0
      let conf := min (0.5 + dev * 0.2) 1
      if cfg.min_confidence ≤ conf then some (mkFinding "IQR_OUTLIER" conf r)
      else none

/-- A Bool substring check on character lists (used for the brand names). -/
def subAt : List Char → List Char → Bool
  | _, [] => true
  | [], _ :: _ => false
  | h :: t, n :: ns => (h == n && prefAt t ns) || subAt t (n :: ns)
where prefAt : List Char → List Char → Bool
  | _, [] => true
  | [], _ :: _ => false
  | h :: t, n :: ns => h == n && prefAt t ns

/-- `'samsung' in name.lower() or 'apple' in name.lower() or 'sony' in
name.lower()` with the `row.get('name', 'Unknown')` default. -/
def brandHit (n : Option String) : Prop :=
  let lower := (n.getD "Unknown").data.map Char.toLower
  subAt lower "samsung".data = true ∨ subAt lower "apple".data = true ∨
    subAt lower "sony".data = true

/-- `df[df['category'] == c]`: a pandas equality comparison matches no row
when the probe value is `None`, and a `NaN` cell never matches. -/
def categoryRows (rows : List Row) (c : Option String) : List Row :=
  match c with
  | none => []
  | some s => rows.filter fun r => r.category == some s

/-- `Series.median()` over the non-missing values; `none` is the NaN median
of an empty series (all comparisons against it are false). -/
noncomputable def medianOf (xs : List ℝ) : Option ℝ :=
  if xs = [] then none else some (quantile xs 0.5)

/-- Indicator 1 of `_detect_fake_discounts`: original price is a round
multiple of 100 (or else of 50). -/
noncomputable def fakeRoundOriginal (r : Row) : ℝ :=
  if otest r.original_price fun o => 100 ≤ o ∧ pymod o 100 = 0 then 0.15
  else if otest r.original_price fun o => 50 ≤ o ∧ pymod o 50 = 0 then 0.10
  else 0

/-- Indicator 2: the discount is a round multiple of 10 and at least 50. -/
noncomputable def fakeRoundDiscount (r : Row) : ℝ :=
  if otest r.discount_percentage fun d => pymod d 10 = 0 ∧ 50 ≤ d then 0.10
  else 0

/-- Indicator 3: original price above 2.5 times the category median current
price, guarded by Python truthiness of the category label and by more than 5
rows in the category. -/
noncomputable def fakeAboveCategoryMedian (rows : List Row) (r : Row) : ℝ :=
  match r.category with
  | none => 0
  | some c =>
    if c ≠ "" ∧ 5 < (categoryRows rows (some c)).length ∧
        (match medianOf ((categoryRows rows (some c)).filterMap
            Row.current_price) with
         | some m => otest r.original_price fun o => m * 2.5 < o
         | none => False) then 0.30
    else 0

/-- Indicator 4: discount at least 60 while the current price is within 20%
of the category median (the category probe may be `None` here, matching no
rows; in Python a zero median would raise `ZeroDivisionError`, while the
total Lean division makes the condition hold — no analysed batch reaches
that corner). -/
noncomputable def fakeAveragePrice (rows : List Row) (r : Row) : ℝ :=
  if otest r.discount_percentage (60 ≤ ·) then
    if 3 < (categoryRows rows r.category).length then
      match medianOf ((categoryRows rows r.category).filterMap
          Row.current_price) with
      | some m => if otest r.current_price fun cur => |cur - m| / m < 0.2
          then 0.25 else 0
      | none => 0
    else 0
  else 0

/-- The accumulated suspicion of `_detect_fake_discounts` for one row. -/
noncomputable def fakeConfidence (rows : List Row) (r : Row) : ℝ :=
  fakeRoundOriginal r + fakeRoundDiscount r + fakeAboveCategoryMedian rows r +
    fakeAveragePrice rows r

/-- `AnomalyDetector._detect_fake_discounts`. -/
noncomputable def fakeDiscountAnomalies (cfg : Config) (rows : List Row) :
    List AnomalyResult :=
  rows.filterMap fun r =>
    if falsy r.current_price ∨ falsy r.original_price ∨
        r.discount_percentage = some 0 then none
    else
      let conf := fakeConfidence rows r
      if cfg.min_confidence ≤ conf then
        some (mkFinding "FAKE_DISCOUNT" (min conf 1) r)
      else none

/-- The additive score of `_detect_too_good_to_be_true` for one row:
discount tiers, absolute savings tiers (guarded by `if original:`), premium
brand at a low price, and a near-zero current price. -/
noncomputable def tgtbtScore (r : Row) : ℝ :=
  (if otest r.discount_percentage (95 ≤ ·) then 0.40
   else if otest r.discount_percentage (90 ≤ ·) then 0.30
   else if otest r.discount_percentage (80 ≤ ·) then 0.20
   else 0)
  + (match r.original_price, r.current_price with
     | some o, some c =>
       if o ≠ 0 then
         if 5000 < o - c then 0.25 else if 2000 < o - c then 0.15 else 0
       else 0
     | _, _ => 0)
  + (if brandHit r.name ∧ otest r.current_price (· < 500) ∧
        otest r.discount_percentage (70 < ·) then 0.20
     else 0)
  + (if otest r.current_price (· < 50) ∧ otest r.original_price (500 < ·)
     then 0.15
     else 0)

/-- `AnomalyDetector._detect_too_good_to_be_true`. -/
noncomputable def tgtbtAnomalies (cfg : Config) (rows : List Row) :
    List AnomalyResult :=
  rows.filterMap fun r =>
    if falsy r.current_price ∨ r.discount_percentage = some 0 then none
    else
      let score := tgtbtScore r
      if cfg.min_confidence ≤ score then
        some (mkFinding "TOO_GOOD_TO_BE_TRUE" (min score 1) r)
      else none

/-- The pattern score of `_detect_price_manipulation` for one row. -/
noncomputable def manipulationScore (r : Row) : ℝ :=
  (match r.original_price, r.current_price with
   | some o, some c =>
     if 0.98 < pymod o 1 ∧ pymod c 1 < 0.05 then 0.15 else 0
   | _, _ => 0)
  + (if otest r.discount_percentage fun d =>
        d = 50 ∨ d = 75 ∨ d = 66.7 ∨ d = 33.3 then 0.10
     else 0)
  + (match r.original_price, r.current_price with
     | some o, some c => if o ≠ 0 ∧ |c * 2 - o| < 1 then 0.20 else 0
     | _, _ => 0)

/-- `AnomalyDetector._detect_price_manipulation` (its `0.25` gate is
hardcoded in the source, independent of the configuration). -/
noncomputable def manipulationAnomalies (_cfg : Config) (rows : List Row) :
    List AnomalyResult :=
  rows.filterMap fun r =>
    if falsy r.current_price ∨ falsy r.original_price ∨
        r.discount_percentage = some 0 then none
    else
      let score := manipulationScore r
      if 0.25 ≤ score then
        some (mkFinding "PRICE_MANIPULATION" (min (score + 0.4) 1) r)
      else none

/-- One step of `_deduplicate_anomalies`: insert into the `seen_products`
dict, replacing the entry of the same product name when the new confidence is
strictly higher (dict update keeps the key position). -/
noncomputable def dedupStep (acc : List AnomalyResult) (a : AnomalyResult) :
    List AnomalyResult :=
  if acc.any fun b => b.product_name == a.product_name then
    acc.map fun b =>
      if b.product_name = a.product_name ∧
          b.confidence_score < a.confidence_score then a
      else b
  else acc ++ [a]

/-- `AnomalyDetector._deduplicate_anomalies`: an insertion-ordered dict keyed
by `product_name`, keeping the higher confidence per key. -/
noncomputable def deduplicateAnomalies (l : List AnomalyResult) :
    List AnomalyResult :=
  l.foldl dedupStep []

/-- One insertion of Python's stable descending
`sorted(key=confidence, reverse=True)`: a new element goes after every
already-placed element of greater or equal confidence. -/
noncomputable def insertByConfidence (a : AnomalyResult) :
    List AnomalyResult → List AnomalyResult
  | [] => [a]
  | b :: bs =>
    if a.confidence_score ≤ b.confidence_score then b :: insertByConfidence a bs
    else a :: b :: bs

/-- `sorted(anomalies, key=lambda x: x.confidence_score, reverse=True)`
(stable). -/
noncomputable def sortByConfidence (l : List AnomalyResult) :
    List AnomalyResult :=
  l.foldl (fun acc a => insertByConfidence a acc) []

/-- `AnomalyDetector.detect_anomalies`: the five detectors in order, then
deduplication, then the descending sort by confidence. -/
noncomputable def detectAnomalies (cfg : Config) (rows : List Row) :
    List AnomalyResult :=
  if rows.isEmpty then []
  else
    sortByConfidence (deduplicateAnomalies
      (zscoreAnomalies cfg rows ++ iqrAnomalies cfg rows ++
        fakeDiscountAnomalies cfg rows ++ tgtbtAnomalies cfg rows ++
        manipulationAnomalies cfg rows))

/-! ## Price validator (`price_validator.py`)

`validate_product_price` takes `Optional[float]` arguments; `none` models an
absent (`None`) argument. -/

/-- The `critical_errors` list of `PriceValidator._determine_severity`. -/
def criticalErrors : List String :=
  ["MISSING_PRICES", "NEGATIVE_REGULAR_PRICE", "NEGATIVE_SALE_PRICE"]

/-- The `high_errors` list of `PriceValidator._determine_severity`. -/
def highErrors : List String :=
  ["INVALID_PRICE_RELATIONSHIP", "EXCESSIVE_REGULAR_PRICE",
    "EXCESSIVE_SALE_PRICE"]

/-- `PriceValidator._determine_severity`. -/
def determineSeverity (errors : List String) : String :=
  if errors.any fun e => criticalErrors.contains e then "critical"
  else if errors.any fun e => highErrors.contains e then "high"
  else "medium"

/-- Range check of rule 2 of `validate_product_price` for one price, with the
rules `min_price = 0.01` and `max_price = 100000`. -/
noncomputable def priceRangeErrors (price : Option ℝ) (label : String) :
    List String :=
  match price with
  | some p =>
    if p < 0.01 then ["NEGATIVE_" ++ label ++ "_PRICE"]
    else if 100000 < p then ["EXCESSIVE_" ++ label ++ "_PRICE"]
    else []
  | none => []

/-- The error-code list accumulated by `PriceValidator.validate_product_price`
(rules 1-5, in order). -/
noncomputable def validationErrors (regular_price sale_price
    discount_percentage : Option ℝ) : List String :=
  (if regular_price = none ∧ sale_price = none then ["MISSING_PRICES"]
   else [])
  ++ priceRangeErrors regular_price "REGULAR"
  ++ priceRangeErrors sale_price "SALE"
  ++ (match regular_price, sale_price with
      | some rp, some sp =>
        if rp < sp then ["INVALID_PRICE_RELATIONSHIP"] else []
      | _, _ => [])
  ++ (match discount_percentage with
      | some d =>
        if d < 0 then ["NEGATIVE_DISCOUNT"]
        else if 95 < d then ["EXCESSIVE_DISCOUNT"]
        else []
      | none => [])
  ++ (match regular_price, sale_price, discount_percentage with
      | some rp, some sp, some d =>
        if 0 < rp ∧ 1 < |(rp - sp) / rp * 100 - d| then ["DISCOUNT_MISMATCH"]
        else []
      | _, _, _ => [])

/-- The `ValidationResult` dataclass (`error_message` and `suggestions`, both
presentational, omitted). -/
structure ValidationResult where
  is_valid : Bool
  error_code : Option String
  severity : String

/-- `PriceValidator.validate_product_price`. -/
noncomputable def validateProductPrice (regular_price sale_price
    discount_percentage : Option ℝ) : ValidationResult :=
  let errors := validationErrors regular_price sale_price discount_percentage
  if errors.isEmpty then ⟨true, none, "low"⟩
  else ⟨false, errors.head?, determineSeverity errors⟩

/-! ## Discount analyzer (`discount_analyzer.py`) -/

/-- A DataFrame as seen by `analyze_discounts`: the present column names and
the rows.  A field of a row whose column is absent reads as missing. -/
structure DataFrame where
  cols : List String
  rows : List Row

/-- The `required_columns` of `analyze_discounts`. -/
def requiredColumns : List String :=
  ["external_id", "name", "regular_price", "sale_price",
    "discount_percentage"]

/-- Effect on one row of the `df[col] = None` loop: every required column
that was absent now exists holding only missing values. -/
def scrubRow (cols : List String) (r : Row) : Row :=
  { r with
    external_id := if "external_id" ∈ cols then r.external_id else none
    name := if "name" ∈ cols then r.name else none
    regular_price := if "regular_price" ∈ cols then r.regular_price else none
    sale_price := if "sale_price" ∈ cols then r.sale_price else none
    discount_percentage :=
      if "discount_percentage" ∈ cols then r.discount_percentage else none }

/-- The `for col in required_columns: if col not in df.columns: df[col] =
None` loop of `analyze_discounts`.  It runs before any `df.copy()`, so it
mutates the caller's DataFrame. -/
def ensureColumns (df : DataFrame) : DataFrame :=
  ⟨df.cols ++ requiredColumns.filter fun c => !df.cols.contains c,
    df.rows.map (scrubRow df.cols)⟩

/-- `_calculate_discount_metrics`: derive `discount_percentage` from the two
prices when it is missing and both prices are present with a positive regular
price. -/
noncomputable def metricDiscount (r : Row) : Option ℝ :=
  match r.discount_percentage with
  | some d => some d
  | none =>
    match r.regular_price, r.sale_price with
    | some rp, some sp =>
      if 0 < rp then some (pyRound2 ((rp - sp) / rp * 100)) else none
    | _, _ => none

/-- A row after `_calculate_discount_metrics` (the derived
`discount_percentage`; the `has_discount` flag is `discountPos` of this row;
the presentational `discount_severity` column is not modelled). -/
noncomputable def withMetrics (r : Row) : Row :=
  { r with discount_percentage := metricDiscount r }

/-- The fixed buckets of the discount distribution: the half-open intervals
of `pd.cut` with bin edges 0, 10, 25, 50, 75, 90, 100. -/
noncomputable def discountBuckets : List (String × ℝ × ℝ) :=
  [("0-10%", 0, 10), ("10-25%", 10, 25), ("25-50%", 25, 50),
    ("50-75%", 50, 75), ("75-90%", 75, 90), ("90-100%", 90, 100)]

/-- `df['discount_range'].value_counts().to_dict()`: every bucket label is
present (a categorical `value_counts` reports empty categories too); values
outside every bin, and missing values, are uncounted. -/
noncomputable def discountDistribution (rows : List Row) :
    List (String × ℕ) :=
  discountBuckets.map fun b =>
    (b.1,
      (rows.filter fun r =>
          decide (otest r.discount_percentage fun d => b.2.1 < d ∧ d ≤ b.2.2)).length)

/-- One entry of `_detect_potential_errors` (`description` omitted). -/
structure PotentialError where
  product_id : Option ℕ
  name : Option String
  error_type : String
  severity : String
  regular_price : Option ℝ
  sale_price : Option ℝ
  discount_percentage : Option ℝ

/-- The row data every `_detect_potential_errors` entry copies. -/
def mkPotentialError (r : Row) (etype sev : String) : PotentialError :=
  ⟨r.external_id, r.name, etype, sev, r.regular_price, r.sale_price,
    r.discount_percentage⟩

/-- `DiscountAnalyzer._detect_potential_errors` (methods 1-4; method 5 needs
historical data, which the analyzer of this pipeline is built without). -/
noncomputable def detectPotentialErrors (rows : List Row) :
    List PotentialError :=
  ((rows.filter fun r => decide (otest r.discount_percentage (90 < ·))).map
      fun r => mkPotentialError r "extreme_discount" "critical")
  ++ ((rows.filter fun r =>
        decide (match r.regular_price, r.sale_price with
                | some rp, some sp => rp < sp
                | _, _ => False)).map
      fun r => mkPotentialError r "invalid_price_relationship" "high")
  ++ ((rows.filter fun r =>
        decide (otest r.regular_price (· < 0) ∨
          otest r.sale_price (· < 0))).map
      fun r => mkPotentialError r "negative_price" "critical")
  ++ ((rows.filter fun r =>
        decide (r.regular_price = none ∧ r.sale_price = none)).map
      fun r => mkPotentialError r "missing_price_data" "medium")

/-- `Series.max()` over the non-missing values of a series (callers handle
the empty case separately, as the code handles the NaN max). -/
noncomputable def listMax : List ℝ → ℝ
  | [] => 0
  | x :: xs => xs.foldl max x

/-- The `DiscountAnalysis` dataclass (`high_discount_products` omitted:
purely a report listing, referenced by no analysed property). -/
structure DiscountAnalysis where
  total_products : ℕ
  products_with_discount : ℕ
  average_discount : ℝ
  max_discount : ℝ
  discount_distribution : List (String × ℕ)
  potential_errors : List PotentialError

/-- `DiscountAnalyzer.analyze_discounts`.  The first component of the result
is the caller's DataFrame after the call: the required-columns loop runs on
it before the internal `df.copy()`, so missing required columns are added to
the input in place; everything else operates on the copy. -/
noncomputable def analyzeDiscounts (df : DataFrame) :
    DataFrame × DiscountAnalysis :=
  let mutated := ensureColumns df
  let mrows := mutated.rows.map withMetrics
  let discounted := mrows.filter fun r => decide (discountPos r)
  let avg : ℝ :=
    if discounted.isEmpty then 0 else pyRound2 (rmean (discounted.map dval))
  let present := mrows.filterMap Row.discount_percentage
  let mx : ℝ := if present.isEmpty then 0 else pyRound2 (listMax present)
  (mutated,
    ⟨mutated.rows.length, discounted.length, avg, mx,
      discountDistribution mrows, detectPotentialErrors mrows⟩)

/-! ## Concrete batches used in witnesses and counterexamples -/

/-- A record priced 100 down from 6000 at a 95% discount, with the given
product id and name (no category).  The too-good-to-be-true detector scores
it 0.40 (discount tier) + 0.25 (savings tier) = 0.65. -/
noncomputable def genRow (i : Option ℕ) (nm : String) : Row :=
  ⟨i, some nm, none, some 100, some 6000, none, none, some 95⟩

/-- The finding the too-good-to-be-true detector emits for `genRow _ nm`. -/
noncomputable def genFinding (nm : String) : AnomalyResult :=
  ⟨nm, "TOO_GOOD_TO_BE_TRUE", 0.65, some 100, some 6000, some 95⟩

/-- Product 7 under the name "a". -/
noncomputable def rowDupA : Row := genRow (some 7) "a"

/-- The same product 7 listed again under the name "b". -/
noncomputable def rowDupB : Row := genRow (some 7) "b"

/-- A batch with two records of the same product id and different names. -/
noncomputable def dfDup : List Row := [rowDupA, rowDupB]

/-- Product 2, name "b", listed before product 1, name "a"; both get
equal-confidence findings. -/
noncomputable def rowTieB : Row := genRow (some 2) "b"

/-- Product 1, name "a". -/
noncomputable def rowTieA : Row := genRow (some 1) "a"

/-- A batch producing two equal-confidence findings with the higher product
id first. -/
noncomputable def dfTie : List Row := [rowTieB, rowTieA]

/-- A price-less record with a 10% discount. -/
noncomputable def row10 : Row :=
  ⟨none, some "n", none, none, none, none, none, some 10⟩

/-- A price-less record with a 28% discount. -/
noncomputable def row28 : Row :=
  ⟨none, some "x", none, none, none, none, none, some 28⟩

/-- Nine discounted records: eight at 10%, one at 28%.  The discount mean is
12, the sample standard deviation 6, so the 28% record has Z-score 8/3,
above the 2.5 threshold but with `min(Z/5, 1) = 8/15` below the 0.6
confidence gate. -/
noncomputable def df9 : List Row :=
  [row10, row10, row10, row10, row10, row10, row10, row10, row28]

/-- A price-less record with a 20% discount. -/
noncomputable def row20 : Row :=
  ⟨none, some "n", none, none, none, none, none, some 20⟩

/-- A price-less record with a 50% discount. -/
noncomputable def row50 : Row :=
  ⟨none, some "x", none, none, none, none, none, some 50⟩

/-- Sixteen discounted records: fifteen at 20%, one at 50%.  Mean 175/8,
sample standard deviation 15/2, so the 50% record has Z-score 15/4 = 3.75
and confidence 0.75. -/
noncomputable def df16 : List Row :=
  [row20, row20, row20, row20, row20, row20, row20, row20, row20, row20,
    row20, row20, row20, row20, row20, row50]

/-- Three records with the same 10% discount: standard deviation zero. -/
noncomputable def dfFlat3 : List Row := [row10, row10, row10]

/-- Four records with the same 10% discount: `IQR = 0`. -/
noncomputable def dfFlat4 : List Row := [row10, row10, row10, row10]

/-- A price-less discounted record with the given discount and name. -/
noncomputable def discRow (nm : String) (d : ℝ) : Row :=
  ⟨none, some nm, none, none, none, none, none, some d⟩

/-- Five discounted records at 10, 20, 30, 40 and 75 percent.  Q1 = 20,
Q3 = 40, IQR = 20, upper bound 70: the 75% record is beyond the bound but
its confidence `0.5 + (5/20)*0.2 = 0.55` is below the 0.6 gate. -/
noncomputable def dfIqr5 : List Row :=
  [discRow "p" 10, discRow "q" 20, discRow "r" 30, discRow "s" 40,
    discRow "t" 75]

/-- Five discounted records at 10, 20, 30, 40 and 85 percent: the same
bounds, and the 85% record has confidence `0.5 + (15/20)*0.2 = 0.65`. -/
noncomputable def dfIqr85 : List Row :=
  [discRow "p" 10, discRow "q" 20, discRow "r" 30, discRow "s" 40,
    discRow "t" 85]

/-- A record whose stored discount is negative (-5%). -/
noncomputable def rowNeg : Row :=
  ⟨some 1, some "p", none, none, none, some 100, some 105, some (-5)⟩

/-- A one-record DataFrame (all required columns present) in which no record
has a positive discount, but one discount is negative. -/
noncomputable def dfNeg : DataFrame := ⟨requiredColumns, [rowNeg]⟩

/-- A record with a zero discount. -/
noncomputable def rowZeroDisc : Row :=
  ⟨some 2, some "q", none, none, none, some 100, some 100, some 0⟩

/-- A record with no discount and no prices. -/
noncomputable def rowNoDisc : Row :=
  ⟨some 3, some "s", none, none, none, none, none, none⟩

/-- A two-record DataFrame with zero discounted records. -/
noncomputable def dfZero : DataFrame := ⟨requiredColumns, [rowZeroDisc, rowNoDisc]⟩

/-- A DataFrame whose column list is missing `external_id`. -/
noncomputable def dfMissing : DataFrame :=
  ⟨["name", "regular_price", "sale_price", "discount_percentage"],
    [⟨none, some "p", none, none, none, some 100, some 50, some 50⟩]⟩

/-! ## Theorems -/

/-- Claim C4 (confirmed): a record whose sale price is negative is reported
invalid with critical severity by `validate_product_price`, whatever the
regular price and discount are; and `_detect_potential_errors` likewise
emits a critical `negative_price` entry for every such record. -/
theorem C4_negative_sale_price_critical (regular discount : Option ℝ)
    (sale : ℝ) (hs : sale < 0) :
    ((validateProductPrice regular (some sale) discount).is_valid = false ∧
      (validateProductPrice regular (some sale) discount).severity =
        "critical") ∧
    ∀ (rows : List Row) (r : Row), r ∈ rows → r.sale_price = some sale →
      mkPotentialError r "negative_price" "critical" ∈
        detectPotentialErrors rows := by
  have hrange : priceRangeErrors (some sale) "SALE" =
      ["NEGATIVE_SALE_PRICE"] := by
    have h01 : sale < 0.01 := lt_trans hs (by norm_num)
    simp only [priceRangeErrors, if_pos h01]
    decide
  have hmem : "NEGATIVE_SALE_PRICE" ∈
      validationErrors regular (some sale) discount := by
    unfold validationErrors
    refine List.mem_append_left _ ?_
    refine List.mem_append_left _ ?_
    refine List.mem_append_left _ ?_
    refine List.mem_append_right _ ?_
    rw [hrange]
    exact List.mem_singleton_self _
  have hne : ¬(validationErrors regular (some sale) discount).isEmpty := by
    simp only [List.isEmpty_iff]
    exact List.ne_nil_of_mem hmem
  have hcrit : determineSeverity
      (validationErrors regular (some sale) discount) = "critical" := by
    unfold determineSeverity
    rw [if_pos]
    rw [List.any_eq_true]
    exact ⟨_, hmem, by decide⟩
  constructor
  · constructor
    · unfold validateProductPrice
      rw [if_neg hne]
    · unfold validateProductPrice
      rw [if_neg hne, hcrit]
  · intro rows r hr hsale
    unfold detectPotentialErrors
    refine List.mem_append_left _ ?_
    refine List.mem_append_right _ ?_
    refine List.mem_map_of_mem _ ?_
    rw [List.mem_filter]
    refine ⟨hr, ?_⟩
    rw [decide_eq_true_eq]
    exact Or.inr (by rw [hsale]; exact hs)

/-- Witness for C4 at the concrete input: regular price 100, sale price -5,
no discount value. -/
theorem C4_witness :
    ((validateProductPrice (some 100) (some (-5)) none).is_valid = false ∧
      (validateProductPrice (some 100) (some (-5)) none).severity =
        "critical") ∧
    ∀ (rows : List Row) (r : Row), r ∈ rows → r.sale_price = some (-5) →
      mkPotentialError r "negative_price" "critical" ∈
        detectPotentialErrors rows :=
  C4_negative_sale_price_critical (some 100) none (-5) (by norm_num)

/-- Counterexample for C7: with regular 100, sale 90 and claimed discount
13%, the recomputed discount is 10%, a difference of 3 percentage points —
at most 5, so the claim says no mismatch is flagged — yet the validator
flags `DISCOUNT_MISMATCH` (its tolerance is 1 point, not 5). -/
theorem C7_counterexample :
    (validateProductPrice (some 100) (some 90) (some 13)).is_valid = false ∧
    (validateProductPrice (some 100) (some 90) (some 13)).error_code =
      some "DISCOUNT_MISMATCH" ∧
    |((100 : ℝ) - 90) / 100 * 100 - 13| ≤ 5 := by
  have habs : |((100 : ℝ) - 90) / 100 * 100 - 13| = 3 := by norm_num
  have herr : validationErrors (some 100) (some 90) (some 13) =
      ["DISCOUNT_MISMATCH"] := by
    simp only [validationErrors, priceRangeErrors]
    norm_num [habs]
    simp
  refine ⟨?_, ?_, by rw [habs]; norm_num⟩ <;>
    simp [validateProductPrice, herr, determineSeverity, criticalErrors,
      highErrors]

/-- Claim C7 (amended): with regular price, sale price and claimed discount
all present and the regular price positive, `DISCOUNT_MISMATCH` is flagged
exactly when the recomputed discount `(regular - sale)/regular * 100`
differs from the claimed discount by more than 1 percentage point (the
source's tolerance; the spec says 5), and when it is the only error the
record is reported invalid with medium severity. -/
theorem C7_discount_mismatch_threshold (rp sp d : ℝ) (h : 0 < rp) :
    ("DISCOUNT_MISMATCH" ∈ validationErrors (some rp) (some sp) (some d) ↔
      1 < |(rp - sp) / rp * 100 - d|) ∧
    (validationErrors (some rp) (some sp) (some d) = ["DISCOUNT_MISMATCH"] →
      validateProductPrice (some rp) (some sp) (some d) =
        ⟨false, some "DISCOUNT_MISMATCH", "medium"⟩) := by
  constructor
  · constructor
    · intro hmem
      simp only [validationErrors, priceRangeErrors, List.mem_append]
        at hmem
      rcases hmem with ((((h1 | h1) | h1) | h1) | h1) | h1
      · rw [if_neg (by simp)] at h1
        cases h1
      · split_ifs at h1 <;> simp at h1
      · split_ifs at h1 <;> simp at h1
      · split_ifs at h1 <;> simp at h1
      · split_ifs at h1 <;> simp at h1
      · split_ifs at h1 with hc <;> simp at h1
        exact hc.2
    · intro hgt
      simp only [validationErrors, List.mem_append]
      refine Or.inr ?_
      rw [if_pos ⟨h, hgt⟩]
      exact List.mem_singleton_self _
  · intro he
    unfold validateProductPrice
    rw [he]
    simp [determineSeverity, criticalErrors, highErrors]

/-- Witness for C7 at regular 100, sale 50, claimed discount 40: the
recomputed discount 50 differs by 10 > 1 points, and the mismatch (the only
error there) makes the record invalid with medium severity. -/
theorem C7_witness :
    ("DISCOUNT_MISMATCH" ∈ validationErrors (some 100) (some 50) (some 40) ↔
      1 < |((100 : ℝ) - 50) / 100 * 100 - 40|) ∧
    (validationErrors (some 100) (some 50) (some 40) =
        ["DISCOUNT_MISMATCH"] →
      validateProductPrice (some 100) (some 50) (some 40) =
        ⟨false, some "DISCOUNT_MISMATCH", "medium"⟩) :=
  C7_discount_mismatch_threshold 100 50 40 (by norm_num)

/-- Claim C5 (confirmed): whenever the sample standard deviation of the
discounted records is zero, the Z-score detector emits nothing, for any
configuration — the zero denominator is an early return, not an error. -/
theorem C5_zero_std_no_findings (cfg : Config) (rows : List Row)
    (h : stdDiscount rows = 0) : zscoreAnomalies cfg rows = [] := by
  simp only [zscoreAnomalies]
  rcases lt_or_ge (discountedOf rows).length 3 with h1 | h1
  · rw [if_pos h1]
  · rw [if_neg (by omega), if_pos h]

/-- The discount series of `dfFlat3`. -/
lemma discounts_dfFlat3 : discounts dfFlat3 = [10, 10, 10] := by
  norm_num [discounts, discountedOf, dfFlat3, row10, discountPos, otest,
    dval, List.filter]

/-- Witness for C5: three records with identical 10% discounts have zero
standard deviation, and the detector returns the empty list. -/
theorem C5_witness : zscoreAnomalies defaultConfig dfFlat3 = [] := by
  refine C5_zero_std_no_findings defaultConfig dfFlat3 ?_
  rw [stdDiscount, discounts_dfFlat3]
  rw [show sampleVar [(10 : ℝ), 10, 10] = 0 by norm_num [sampleVar, rmean]]
  exact Real.sqrt_zero

/-- A record of the discounted selection contributes its discount value to
the discount series. -/
lemma dval_mem_discounts {rows : List Row} {r : Row}
    (h : r ∈ discountedOf rows) : dval r ∈ discounts rows :=
  List.mem_map_of_mem _ h

/-- A batch in which some record has Z-score above 2.5 must have at least 3
discounted records: with one discounted record the sample deviation is not
positive, and with two every Z-score is ±(1/√2). -/
lemma three_le_of_big_zscore {rows : List Row} {r : Row}
    (hr : r ∈ discountedOf rows) (hstd : 0 < stdDiscount rows)
    (hz : 2.5 < zscore rows r) : 3 ≤ (discountedOf rows).length := by
  by_contra hlt
  push_neg at hlt
  rcases hl : discountedOf rows with _ | ⟨a, _ | ⟨b, _ | ⟨c, t⟩⟩⟩
  · rw [hl] at hr
    cases hr
  · have hd : discounts rows = [dval a] := by rw [discounts, hl]; rfl
    have hv : sampleVar [dval a] = 0 := by
      norm_num [sampleVar, rmean]
    have : stdDiscount rows = 0 := by
      rw [stdDiscount, hd, hv, Real.sqrt_zero]
    linarith
  · have hd : discounts rows = [dval a, dval b] := by rw [discounts, hl]; rfl
    have hrm : rmean [dval a, dval b] = (dval a + dval b) / 2 := by
      show (dval a + (dval b + 0)) / ((2 : ℕ) : ℝ) = _
      push_cast
      ring
    have hv : sampleVar [dval a, dval b] = (dval a - dval b) ^ 2 / 2 := by
      show ((dval a - rmean [dval a, dval b]) ^ 2 +
          ((dval b - rmean [dval a, dval b]) ^ 2 + 0)) /
          (((2 : ℕ) : ℝ) - 1) = _
      rw [hrm]
      push_cast
      ring
    have hs2 : stdDiscount rows ^ 2 = (dval a - dval b) ^ 2 / 2 := by
      rw [stdDiscount, hd, hv]
      exact Real.sq_sqrt (by positivity)
    have hm : meanDiscount rows = (dval a + dval b) / 2 := by
      rw [meanDiscount, hd, hrm]
    have ht : 2.5 * stdDiscount rows < dval r - meanDiscount rows := by
      have h25 := hz
      rw [zscore, lt_div_iff₀ hstd] at h25
      linarith
    have hrab : r = a ∨ r = b := by
      rw [hl] at hr
      simpa using hr
    have hcase : (dval r - meanDiscount rows) ^ 2 = stdDiscount rows ^ 2 / 2
        := by
      rw [hm, hs2]
      rcases hrab with h | h <;> rw [h] <;> ring
    nlinarith [mul_pos hstd hstd, ht, hcase, hstd]
  · rw [hl] at hlt
    simp at hlt
    omega

/-- Claim C1 (amended): a discounted record whose Z-score exceeds the 2.5
threshold receives a `STATISTICAL_OUTLIER` finding with confidence
`min(Z/5, 1)` — provided that confidence also passes the detector's
`min_confidence` gate (0.6 by default, i.e. Z ≥ 3), a condition the spec
omits. -/
theorem C1_zscore_detection (rows : List Row) (r : Row)
    (hr : r ∈ discountedOf rows) (hstd : 0 < stdDiscount rows)
    (hz : 2.5 < zscore rows r)
    (hc : 0.6 ≤ min (zscore rows r / 5) 1) :
    mkFinding "STATISTICAL_OUTLIER" (min (zscore rows r / 5) 1) r ∈
      zscoreAnomalies defaultConfig rows := by
  have hlen := three_le_of_big_zscore hr hstd hz
  have habs : |zscore rows r| = zscore rows r :=
    abs_of_pos (lt_trans (by norm_num) hz)
  simp only [zscoreAnomalies]
  rw [if_neg (by omega), if_neg (ne_of_gt hstd)]
  apply List.mem_filterMap.2
  refine ⟨r, ?_, ?_⟩
  · rw [List.mem_filter]
    refine ⟨hr, ?_⟩
    rw [decide_eq_true_eq]
    show (2.5 : ℝ) < zscore rows r
    exact hz
  · show (if defaultConfig.min_confidence ≤ min (|zscore rows r| / 5) 1
        then _ else none) = _
    rw [habs, if_pos (by exact hc)]

/-- All records of `df9` are discounted. -/
lemma discounted_df9 : discountedOf df9 = df9 := by
  refine List.filter_eq_self.2 ?_
  intro a ha
  rw [decide_eq_true_eq]
  simp only [df9, List.mem_cons, List.not_mem_nil, or_false] at ha
  rcases ha with h | h | h | h | h | h | h | h | h <;> subst h <;>
    norm_num [discountPos, otest, row10, row28]

/-- The discount series of `df9`. -/
lemma discounts_df9 :
    discounts df9 = [10, 10, 10, 10, 10, 10, 10, 10, 28] := by
  rw [discounts, discounted_df9]
  simp [df9, dval, row10, row28]

/-- The mean discount of `df9` is 12. -/
lemma meanDiscount_df9 : meanDiscount df9 = 12 := by
  rw [meanDiscount, discounts_df9]
  norm_num [rmean]

/-- The sample standard deviation of `df9` is 6. -/
lemma stdDiscount_df9 : stdDiscount df9 = 6 := by
  rw [stdDiscount, discounts_df9]
  rw [show sampleVar [(10 : ℝ), 10, 10, 10, 10, 10, 10, 10, 28] = 6 ^ 2 by
    norm_num [sampleVar, rmean]]
  exact Real.sqrt_sq (by norm_num)

/-- The Z-score of the 28% record of `df9` is 8/3. -/
lemma zscore_df9_row28 : zscore df9 row28 = 8 / 3 := by
  rw [zscore, meanDiscount_df9, stdDiscount_df9]
  norm_num [dval, row28]

/-- The Z-score of a 10% record of `df9`. -/
lemma zscore_df9_row10 : zscore df9 row10 = -(1 / 3) := by
  rw [zscore, meanDiscount_df9, stdDiscount_df9]
  norm_num [dval, row10]

/-- Counterexample for C1: in `df9` the 28% record has positive standard
deviation and Z-score 8/3 > 2.5, yet the detector emits nothing at all
(the claimed finding would have confidence 8/15, below the 0.6
minimum-confidence gate the claim omits). -/
theorem C1_counterexample :
    0 < stdDiscount df9 ∧ 2.5 < zscore df9 row28 ∧
    row28 ∈ discountedOf df9 ∧ zscoreAnomalies defaultConfig df9 = [] := by
  have h10 : decide (defaultConfig.z_score_threshold < zscore df9 row10)
      = false := by
    rw [decide_eq_false_iff_not, zscore_df9_row10]
    norm_num [defaultConfig]
  have h28 : decide (defaultConfig.z_score_threshold < zscore df9 row28)
      = true := by
    rw [decide_eq_true_eq, zscore_df9_row28]
    norm_num [defaultConfig]
  have hfil : (discountedOf df9).filter
      (fun r => decide (defaultConfig.z_score_threshold < zscore df9 r)) =
      [row28] := by
    rw [discounted_df9]
    show List.filter _ [row10, row10, row10, row10, row10, row10, row10,
      row10, row28] = [row28]
    simp only [List.filter_cons, List.filter_nil, h10, h28]
    simp
  refine ⟨by rw [stdDiscount_df9]; norm_num,
    by rw [zscore_df9_row28]; norm_num,
    by rw [discounted_df9]; simp [df9], ?_⟩
  simp only [zscoreAnomalies]
  rw [if_neg (by rw [discounted_df9]; norm_num [df9]),
    if_neg (by rw [stdDiscount_df9]; norm_num), hfil]
  have hgate : ¬(defaultConfig.min_confidence ≤
      min (|zscore df9 row28| / 5) 1) := by
    rw [zscore_df9_row28]
    rw [show |(8 : ℝ) / 3| = 8 / 3 from abs_of_nonneg (by norm_num)]
    rw [show min ((8 : ℝ) / 3 / 5) 1 = 8 / 15 by
      rw [min_eq_left (by norm_num)]; norm_num]
    norm_num [defaultConfig]
  simp only [List.filterMap_cons, List.filterMap_nil, if_neg hgate]

/-- All records of `df16` are discounted. -/
lemma discounted_df16 : discountedOf df16 = df16 := by
  refine List.filter_eq_self.2 ?_
  intro a ha
  rw [decide_eq_true_eq]
  simp only [df16, List.mem_cons, List.not_mem_nil, or_false] at ha
  rcases ha with h | h | h | h | h | h | h | h | h | h | h | h | h | h | h
    | h <;> subst h <;> norm_num [discountPos, otest, row20, row50]

/-- The discount series of `df16`. -/
lemma discounts_df16 :
    discounts df16 =
      [20, 20, 20, 20, 20, 20, 20, 20, 20, 20, 20, 20, 20, 20, 20, 50] := by
  rw [discounts, discounted_df16]
  simp [df16, dval, row20, row50]

/-- The mean discount of `df16` is 175/8. -/
lemma meanDiscount_df16 : meanDiscount df16 = 175 / 8 := by
  rw [meanDiscount, discounts_df16]
  norm_num [rmean]

/-- The sample standard deviation of `df16` is 15/2. -/
lemma stdDiscount_df16 : stdDiscount df16 = 15 / 2 := by
  rw [stdDiscount, discounts_df16]
  rw [show sampleVar
      [(20 : ℝ), 20, 20, 20, 20, 20, 20, 20, 20, 20, 20, 20, 20, 20, 20, 50]
      = (15 / 2) ^ 2 by norm_num [sampleVar, rmean]]
  exact Real.sqrt_sq (by norm_num)

/-- The Z-score of the 50% record of `df16` is 3.75. -/
lemma zscore_df16_row50 : zscore df16 row50 = 15 / 4 := by
  rw [zscore, meanDiscount_df16, stdDiscount_df16]
  norm_num [dval, row50]

/-- Witness for C1 on `df16`: the 50% record (Z-score 3.75, confidence
0.75) receives its `STATISTICAL_OUTLIER` finding. -/
theorem C1_witness :
    mkFinding "STATISTICAL_OUTLIER" (min (zscore df16 row50 / 5) 1) row50 ∈
      zscoreAnomalies defaultConfig df16 := by
  refine C1_zscore_detection df16 row50 ?_ ?_ ?_ ?_
  · rw [discounted_df16]
    simp [df16]
  · rw [stdDiscount_df16]
    norm_num
  · rw [zscore_df16_row50]
    norm_num
  · rw [zscore_df16_row50]
    norm_num

/-- Claim C6 (amended): with at least 4 discounted records and a positive
IQR, a record whose discount exceeds `Q3 + 1.5*IQR` receives an
`IQR_OUTLIER` finding with confidence
`min(0.5 + ((discount - upper_bound)/IQR) * 0.2, 1)` — provided that
confidence passes the 0.6 minimum-confidence gate, which the spec omits;
and when `IQR = 0` the detector emits nothing. -/
theorem C6_iqr_detection (rows : List Row) :
    (∀ r ∈ discountedOf rows, 4 ≤ (discountedOf rows).length →
      iqrUpperBound defaultConfig rows < dval r →
      0 < iqrOf rows →
      0.6 ≤ min (0.5 +
        (dval r - iqrUpperBound defaultConfig rows) / iqrOf rows * 0.2) 1 →
      mkFinding "IQR_OUTLIER" (min (0.5 +
          (dval r - iqrUpperBound defaultConfig rows) / iqrOf rows * 0.2) 1)
        r ∈ iqrAnomalies defaultConfig rows) ∧
    (iqrOf rows = 0 → iqrAnomalies defaultConfig rows = []) := by
  constructor
  · intro r hr hlen hub hiqr hconf
    simp only [iqrAnomalies]
    rw [if_neg (by omega)]
    apply List.mem_filterMap.2
    refine ⟨r, ?_, ?_⟩
    · rw [List.mem_filter]
      exact ⟨hr, by rw [decide_eq_true_eq]; exact hub⟩
    · rw [if_pos hiqr, if_pos (by exact hconf)]
  · intro hiqr
    simp only [iqrAnomalies]
    rcases lt_or_ge (discountedOf rows).length 4 with h4 | h4
    · rw [if_pos h4]
    · rw [if_neg (by omega)]
      refine List.filterMap_eq_nil_iff.2 ?_
      intro r _
      have hdev : ¬(0 : ℝ) < iqrOf rows := by rw [hiqr]; exact lt_irrefl 0
      have hg : ¬(defaultConfig.min_confidence ≤
          min (0.5 + (0 : ℝ) * 0.2) 1) := by
        rw [show defaultConfig.min_confidence = 0.6 from rfl]
        norm_num [min_def]
      rw [if_neg hdev, if_neg hg]

/-- All records of `dfIqr5` are discounted. -/
lemma discounted_dfIqr5 : discountedOf dfIqr5 = dfIqr5 := by
  refine List.filter_eq_self.2 ?_
  intro a ha
  rw [decide_eq_true_eq]
  simp only [dfIqr5, List.mem_cons, List.not_mem_nil, or_false] at ha
  rcases ha with h | h | h | h | h <;> subst h <;>
    norm_num [discountPos, otest, discRow]

/-- The discount series of `dfIqr5`. -/
lemma discounts_dfIqr5 : discounts dfIqr5 = [10, 20, 30, 40, 75] := by
  rw [discounts, discounted_dfIqr5]
  simp [dfIqr5, dval, discRow]

/-- Sorting the already ascending series. -/
lemma sortAsc_iqr5 :
    sortAsc [(10 : ℝ), 20, 30, 40, 75] = [10, 20, 30, 40, 75] := by
  norm_num [sortAsc, insertAsc]

/-- Unfolding of `quantile` once the sorted list, the interpolation position
and its floor are known. -/
lemma quantile_eval {xs s : List ℝ} (hs : sortAsc xs = s) {q h : ℝ} {i : ℕ}
    (hh : ((s.length : ℝ) - 1) * q = h) (hi : (⌊h⌋).toNat = i) :
    quantile xs q =
      s.getD i 0 + (h - i) * (s.getD (i + 1) (s.getD i 0) - s.getD i 0) := by
  simp only [quantile, hs, hh, hi]

/-- Q1 of `dfIqr5` is 20. -/
lemma q1_dfIqr5 : quantile [(10 : ℝ), 20, 30, 40, 75] 0.25 = 20 := by
  rw [quantile_eval sortAsc_iqr5 (h := 1) (i := 1) (by norm_num)
    (by rw [show ⌊(1 : ℝ)⌋ = (1 : ℤ) by norm_num]; rfl)]
  rw [show ([(10 : ℝ), 20, 30, 40, 75].getD 1 0) = 20 from rfl,
    show ([(10 : ℝ), 20, 30, 40, 75].getD (1 + 1) 20) = 30 from rfl]
  norm_num

/-- Q3 of `dfIqr5` is 40. -/
lemma q3_dfIqr5 : quantile [(10 : ℝ), 20, 30, 40, 75] 0.75 = 40 := by
  rw [quantile_eval sortAsc_iqr5 (h := 3) (i := 3) (by norm_num)
    (by rw [show ⌊(3 : ℝ)⌋ = (3 : ℤ) by norm_num]; rfl)]
  rw [show ([(10 : ℝ), 20, 30, 40, 75].getD 3 0) = 40 from rfl,
    show ([(10 : ℝ), 20, 30, 40, 75].getD (3 + 1) 40) = 75 from rfl]
  norm_num

/-- The IQR of `dfIqr5` is 20 and its upper bound is 70. -/
lemma iqr_dfIqr5 : iqrOf dfIqr5 = 20 ∧
    iqrUpperBound defaultConfig dfIqr5 = 70 := by
  have h : iqrOf dfIqr5 = 20 := by
    rw [iqrOf, discounts_dfIqr5, q1_dfIqr5, q3_dfIqr5]
    norm_num
  refine ⟨h, ?_⟩
  rw [iqrUpperBound, discounts_dfIqr5, q3_dfIqr5, h]
  norm_num [defaultConfig]

/-- Counterexample for C6: in `dfIqr5` (five discounted records, IQR 20,
upper bound 70) the 75% record exceeds the upper bound, so the claim
requires a finding for it, yet the detector emits nothing (the confidence
0.55 is below the 0.6 gate). -/
theorem C6_counterexample :
    4 ≤ (discountedOf dfIqr5).length ∧ iqrOf dfIqr5 = 20 ∧
    iqrUpperBound defaultConfig dfIqr5 = 70 ∧
    discRow "t" 75 ∈ discountedOf dfIqr5 ∧
    iqrUpperBound defaultConfig dfIqr5 < dval (discRow "t" 75) ∧
    iqrAnomalies defaultConfig dfIqr5 = [] := by
  obtain ⟨hiqr, hub⟩ := iqr_dfIqr5
  have hd75 : dval (discRow "t" 75) = 75 := rfl
  refine ⟨by rw [discounted_dfIqr5]; norm_num [dfIqr5], hiqr, hub,
    by rw [discounted_dfIqr5]; simp [dfIqr5],
    by rw [hub, hd75]; norm_num, ?_⟩
  have hno : ∀ (nm : String) (d : ℝ), d ≤ 40 →
      decide (iqrUpperBound defaultConfig dfIqr5 < dval (discRow nm d))
        = false := by
    intro nm d hd
    rw [decide_eq_false_iff_not, hub]
    show ¬(70 : ℝ) < d
    linarith
  have h75 : decide (iqrUpperBound defaultConfig dfIqr5 <
      dval (discRow "t" 75)) = true := by
    rw [decide_eq_true_eq, hub, hd75]
    norm_num
  have hfil : (discountedOf dfIqr5).filter
      (fun r => decide (iqrUpperBound defaultConfig dfIqr5 < dval r)) =
      [discRow "t" 75] := by
    rw [discounted_dfIqr5]
    show List.filter _ [discRow "p" 10, discRow "q" 20, discRow "r" 30,
      discRow "s" 40, discRow "t" 75] = _
    simp only [List.filter_cons, List.filter_nil,
      hno "p" 10 (by norm_num), hno "q" 20 (by norm_num),
      hno "r" 30 (by norm_num), hno "s" 40 (by norm_num), h75]
    simp
  have hgate : ¬(defaultConfig.min_confidence ≤ min (0.5 +
      (dval (discRow "t" 75) - iqrUpperBound defaultConfig dfIqr5) /
        iqrOf dfIqr5 * 0.2) 1) := by
    rw [hub, hiqr, hd75]
    rw [show (0.5 : ℝ) + ((75 : ℝ) - 70) / 20 * 0.2 = 0.55 by norm_num]
    rw [min_eq_left (by norm_num)]
    norm_num [defaultConfig]
  have h0 : (0 : ℝ) < iqrOf dfIqr5 := by rw [hiqr]; norm_num
  simp only [iqrAnomalies]
  rw [if_neg (by rw [discounted_dfIqr5]; norm_num [dfIqr5]), hfil,
    List.filterMap_cons, if_pos h0, if_neg hgate]
  rfl

/-- All records of `dfIqr85` are discounted. -/
lemma discounted_dfIqr85 : discountedOf dfIqr85 = dfIqr85 := by
  refine List.filter_eq_self.2 ?_
  intro a ha
  rw [decide_eq_true_eq]
  simp only [dfIqr85, List.mem_cons, List.not_mem_nil, or_false] at ha
  rcases ha with h | h | h | h | h <;> subst h <;>
    norm_num [discountPos, otest, discRow]

/-- The discount series of `dfIqr85`. -/
lemma discounts_dfIqr85 : discounts dfIqr85 = [10, 20, 30, 40, 85] := by
  rw [discounts, discounted_dfIqr85]
  simp [dfIqr85, dval, discRow]

/-- Sorting the already ascending series. -/
lemma sortAsc_iqr85 :
    sortAsc [(10 : ℝ), 20, 30, 40, 85] = [10, 20, 30, 40, 85] := by
  norm_num [sortAsc, insertAsc]

/-- Q1 of `dfIqr85` is 20. -/
lemma q1_dfIqr85 : quantile [(10 : ℝ), 20, 30, 40, 85] 0.25 = 20 := by
  rw [quantile_eval sortAsc_iqr85 (h := 1) (i := 1) (by norm_num)
    (by rw [show ⌊(1 : ℝ)⌋ = (1 : ℤ) by norm_num]; rfl)]
  rw [show ([(10 : ℝ), 20, 30, 40, 85].getD 1 0) = 20 from rfl,
    show ([(10 : ℝ), 20, 30, 40, 85].getD (1 + 1) 20) = 30 from rfl]
  norm_num

/-- Q3 of `dfIqr85` is 40. -/
lemma q3_dfIqr85 : quantile [(10 : ℝ), 20, 30, 40, 85] 0.75 = 40 := by
  rw [quantile_eval sortAsc_iqr85 (h := 3) (i := 3) (by norm_num)
    (by rw [show ⌊(3 : ℝ)⌋ = (3 : ℤ) by norm_num]; rfl)]
  rw [show ([(10 : ℝ), 20, 30, 40, 85].getD 3 0) = 40 from rfl,
    show ([(10 : ℝ), 20, 30, 40, 85].getD (3 + 1) 40) = 85 from rfl]
  norm_num

/-- IQR and upper bound of `dfIqr85`. -/
lemma iqr_dfIqr85 : iqrOf dfIqr85 = 20 ∧
    iqrUpperBound defaultConfig dfIqr85 = 70 := by
  have h : iqrOf dfIqr85 = 20 := by
    rw [iqrOf, discounts_dfIqr85, q1_dfIqr85, q3_dfIqr85]
    norm_num
  refine ⟨h, ?_⟩
  rw [iqrUpperBound, discounts_dfIqr85, q3_dfIqr85, h]
  norm_num [defaultConfig]

/-- All records of `dfFlat4` are discounted. -/
lemma discounted_dfFlat4 : discountedOf dfFlat4 = dfFlat4 := by
  refine List.filter_eq_self.2 ?_
  intro a ha
  rw [decide_eq_true_eq]
  simp only [dfFlat4, List.mem_cons, List.not_mem_nil, or_false] at ha
  rcases ha with h | h | h | h <;> subst h <;>
    norm_num [discountPos, otest, row10]

/-- The discount series of `dfFlat4`. -/
lemma discounts_dfFlat4 : discounts dfFlat4 = [10, 10, 10, 10] := by
  rw [discounts, discounted_dfFlat4]
  simp [dfFlat4, dval, row10]

/-- Sorting the constant series. -/
lemma sortAsc_flat4 : sortAsc [(10 : ℝ), 10, 10, 10] = [10, 10, 10, 10] := by
  norm_num [sortAsc, insertAsc]

/-- The IQR of the constant series `dfFlat4` is zero. -/
lemma iqr_dfFlat4 : iqrOf dfFlat4 = 0 := by
  have h1 : quantile [(10 : ℝ), 10, 10, 10] 0.25 = 10 := by
    rw [quantile_eval sortAsc_flat4 (h := 0.75) (i := 0) (by norm_num)
      (by rw [show ⌊(0.75 : ℝ)⌋ = (0 : ℤ) by norm_num]; rfl)]
    rw [show ([(10 : ℝ), 10, 10, 10].getD 0 0) = 10 from rfl,
      show ([(10 : ℝ), 10, 10, 10].getD (0 + 1) 10) = 10 from rfl]
    norm_num
  have h3 : quantile [(10 : ℝ), 10, 10, 10] 0.75 = 10 := by
    rw [quantile_eval sortAsc_flat4 (h := 2.25) (i := 2) (by norm_num)
      (by rw [show ⌊(2.25 : ℝ)⌋ = (2 : ℤ) by norm_num]; rfl)]
    rw [show ([(10 : ℝ), 10, 10, 10].getD 2 0) = 10 from rfl,
      show ([(10 : ℝ), 10, 10, 10].getD (2 + 1) 10) = 10 from rfl]
    norm_num
  rw [iqrOf, discounts_dfFlat4, h1, h3]
  norm_num

/-- Witness for C6: on `dfIqr85` the record at 85% (upper bound 70, IQR 20,
confidence 0.65) gets its finding, and on the constant batch `dfFlat4` the
zero IQR yields no finding. -/
theorem C6_witness :
    mkFinding "IQR_OUTLIER" (min (0.5 +
        (dval (discRow "t" 85) - iqrUpperBound defaultConfig dfIqr85) /
          iqrOf dfIqr85 * 0.2) 1) (discRow "t" 85) ∈
      iqrAnomalies defaultConfig dfIqr85 ∧
    iqrAnomalies defaultConfig dfFlat4 = [] := by
  obtain ⟨hiqr, hub⟩ := iqr_dfIqr85
  constructor
  · refine (C6_iqr_detection dfIqr85).1 (discRow "t" 85) ?_ ?_ ?_ ?_ ?_
    · rw [discounted_dfIqr85]
      simp [dfIqr85]
    · rw [discounted_dfIqr85]
      norm_num [dfIqr85]
    · rw [hub]
      show (70 : ℝ) < 85
      norm_num
    · rw [hiqr]
      norm_num
    · rw [hub, hiqr]
      rw [show dval (discRow "t" 85) = 85 from rfl]
      rw [show (0.5 : ℝ) + ((85 : ℝ) - 70) / 20 * 0.2 = 0.65 by norm_num]
      rw [min_eq_left (by norm_num)]
      norm_num
  · exact (C6_iqr_detection dfFlat4).2 iqr_dfFlat4

/-- One dict-insertion step only produces elements of the accumulator or the
inserted finding. -/
lemma mem_dedupStep {acc : List AnomalyResult} {a x : AnomalyResult}
    (h : x ∈ dedupStep acc a) : x ∈ acc ∨ x = a := by
  unfold dedupStep at h
  split_ifs at h with hc
  · obtain ⟨b, hb, hbe⟩ := List.mem_map.1 h
    by_cases hcond : b.product_name = a.product_name ∧
        b.confidence_score < a.confidence_score
    · rw [if_pos hcond] at hbe
      exact Or.inr hbe.symm
    · rw [if_neg hcond] at hbe
      exact Or.inl (hbe ▸ hb)
  · rcases List.mem_append.1 h with h1 | h1
    · exact Or.inl h1
    · exact Or.inr (List.mem_singleton.1 h1)

/-- Elements of the folded dict come from the accumulator or the input. -/
lemma mem_foldl_dedupStep :
    ∀ (l acc : List AnomalyResult) (x : AnomalyResult),
      x ∈ l.foldl dedupStep acc → x ∈ acc ∨ x ∈ l := by
  intro l
  induction l with
  | nil => exact fun acc x h => Or.inl h
  | cons a t ih =>
    intro acc x h
    rcases ih (dedupStep acc a) x h with h1 | h1
    · rcases mem_dedupStep h1 with h2 | h2
      · exact Or.inl h2
      · exact Or.inr (h2 ▸ List.mem_cons_self a t)
    · exact Or.inr (List.mem_cons_of_mem _ h1)

/-- Deduplication only keeps findings that were in its input. -/
lemma mem_deduplicate {l : List AnomalyResult} {x : AnomalyResult}
    (h : x ∈ deduplicateAnomalies l) : x ∈ l := by
  rcases mem_foldl_dedupStep l [] x h with h1 | h1
  · cases h1
  · exact h1

/-- One dict-insertion step preserves distinctness of the product names. -/
lemma names_dedupStep {acc : List AnomalyResult} (a : AnomalyResult)
    (h : (acc.map AnomalyResult.product_name).Nodup) :
    ((dedupStep acc a).map AnomalyResult.product_name).Nodup := by
  unfold dedupStep
  split_ifs with hc
  · have hsame : (acc.map fun b =>
        if b.product_name = a.product_name ∧
            b.confidence_score < a.confidence_score then a
        else b).map AnomalyResult.product_name =
        acc.map AnomalyResult.product_name := by
      rw [List.map_map]
      refine List.map_congr_left ?_
      intro b _
      by_cases hcond : b.product_name = a.product_name ∧
          b.confidence_score < a.confidence_score
      · simp only [Function.comp_apply, if_pos hcond]
        exact hcond.1.symm
      · simp only [Function.comp_apply, if_neg hcond]
    rw [hsame]
    exact h
  · rw [List.map_append, List.nodup_append]
    refine ⟨h, by simp, ?_⟩
    intro s hs hsa
    obtain ⟨b, hb, hbs⟩ := List.mem_map.1 hs
    apply hc
    rw [List.any_eq_true]
    refine ⟨b, hb, ?_⟩
    rw [beq_iff_eq, hbs]
    simpa using hsa

/-- `_deduplicate_anomalies` leaves at most one finding per product name. -/
lemma names_deduplicate (l : List AnomalyResult) :
    ((deduplicateAnomalies l).map AnomalyResult.product_name).Nodup := by
  suffices h : ∀ acc : List AnomalyResult,
      (acc.map AnomalyResult.product_name).Nodup →
      ((l.foldl dedupStep acc).map AnomalyResult.product_name).Nodup from
    h [] (by simp)
  induction l with
  | nil => exact fun acc h => h
  | cons a t ih => exact fun acc h => ih _ (names_dedupStep a h)

/-- Stable insertion is a permutation of consing. -/
lemma perm_insertByConfidence (a : AnomalyResult) (l : List AnomalyResult) :
    (insertByConfidence a l).Perm (a :: l) := by
  induction l with
  | nil => exact List.Perm.refl _
  | cons b bs ih =>
    unfold insertByConfidence
    split_ifs with hc
    · exact (ih.cons b).trans (List.Perm.swap a b bs)
    · exact List.Perm.refl _

/-- The stable sort is a permutation of its input. -/
lemma perm_sortfold :
    ∀ (l acc : List AnomalyResult),
      (l.foldl (fun acc a => insertByConfidence a acc) acc).Perm
        (acc ++ l) := by
  intro l
  induction l with
  | nil => intro acc; simp
  | cons a t ih =>
    intro acc
    refine (ih (insertByConfidence a acc)).trans ?_
    refine (((perm_insertByConfidence a acc).append_right t).trans ?_)
    exact List.perm_middle.symm

/-- `sorted(..., reverse=True)` permutes the findings. -/
lemma perm_sortByConfidence (l : List AnomalyResult) :
    (sortByConfidence l).Perm l := by
  simpa using perm_sortfold l []

/-- Inserting into a descending list keeps it descending. -/
lemma sorted_insertByConfidence (a : AnomalyResult)
    (l : List AnomalyResult)
    (h : l.Pairwise fun x y => y.confidence_score ≤ x.confidence_score) :
    (insertByConfidence a l).Pairwise
      fun x y => y.confidence_score ≤ x.confidence_score := by
  induction l with
  | nil => simp [insertByConfidence]
  | cons b bs ih =>
    rw [List.pairwise_cons] at h
    unfold insertByConfidence
    split_ifs with hc
    · rw [List.pairwise_cons]
      constructor
      · intro x hx
        rcases List.mem_cons.1 ((perm_insertByConfidence a bs).mem_iff.1 hx)
          with h1 | h1
        · rw [h1]
          exact hc
        · exact h.1 x h1
      · exact ih h.2
    · rw [List.pairwise_cons]
      constructor
      · intro x hx
        rcases List.mem_cons.1 hx with h1 | h1
        · rw [h1]
          exact le_of_lt (lt_of_not_le hc)
        · exact le_trans (h.1 x h1) (le_of_lt (lt_of_not_le hc))
      · exact List.pairwise_cons.2 ⟨h.1, h.2⟩

/-- The output of the stable sort is descending in confidence. -/
lemma sorted_sortByConfidence (l : List AnomalyResult) :
    (sortByConfidence l).Pairwise
      fun x y => y.confidence_score ≤ x.confidence_score := by
  suffices h : ∀ acc : List AnomalyResult,
      (acc.Pairwise fun x y => y.confidence_score ≤ x.confidence_score) →
      ((l.foldl (fun acc a => insertByConfidence a acc) acc).Pairwise
        fun x y => y.confidence_score ≤ x.confidence_score) from
    h [] (by simp)
  induction l with
  | nil => exact fun acc h => h
  | cons a t ih => exact fun acc h => ih _ (sorted_insertByConfidence a acc h)

/-- Claim C2 (amended): the deduplicated output contains at most one finding
per distinct product NAME — `_deduplicate_anomalies` keys its dict on
`product_name`, not on a product id (`AnomalyResult` carries no id), so no
two returned findings share a `product_name`. -/
theorem C2_one_finding_per_name (cfg : Config) (rows : List Row) :
    ((detectAnomalies cfg rows).map AnomalyResult.product_name).Nodup := by
  unfold detectAnomalies
  split_ifs
  · simp
  · exact ((perm_sortByConfidence _).map AnomalyResult.product_name).nodup_iff.2
      (names_deduplicate _)

/-- Claim C3 (amended): the list returned by `detect_anomalies` is sorted in
descending order of confidence; equal-confidence findings keep the stable
sort's insertion order (detector execution order), not ascending product id
— the sort key is confidence alone. -/
theorem C3_sorted_descending (cfg : Config) (rows : List Row) :
    (detectAnomalies cfg rows).Pairwise
      fun f g => g.confidence_score ≤ f.confidence_score := by
  unfold detectAnomalies
  split_ifs
  · exact List.Pairwise.nil
  · exact sorted_sortByConfidence _

/-- Z-score findings under the default configuration sit in [0.6, 1]. -/
lemma zscore_confidence_bound {rows : List Row} {f : AnomalyResult}
    (h : f ∈ zscoreAnomalies defaultConfig rows) :
    0.6 ≤ f.confidence_score ∧ f.confidence_score ≤ 1 := by
  simp only [zscoreAnomalies] at h
  rcases lt_or_ge (discountedOf rows).length 3 with h1 | h1
  · rw [if_pos h1] at h
    cases h
  · rw [if_neg (by omega)] at h
    by_cases h2 : stdDiscount rows = 0
    · rw [if_pos h2] at h
      cases h
    · rw [if_neg h2] at h
      obtain ⟨r, _, heq⟩ := List.mem_filterMap.1 h
      by_cases hgate : defaultConfig.min_confidence ≤
          min (|zscore rows r| / 5) 1
      · rw [if_pos hgate] at heq
        rw [← Option.some.inj heq]
        exact ⟨hgate, min_le_right _ _⟩
      · rw [if_neg hgate] at heq
        cases heq

/-- IQR findings under the default configuration sit in [0.6, 1]. -/
lemma iqr_confidence_bound {rows : List Row} {f : AnomalyResult}
    (h : f ∈ iqrAnomalies defaultConfig rows) :
    0.6 ≤ f.confidence_score ∧ f.confidence_score ≤ 1 := by
  simp only [iqrAnomalies] at h
  rcases lt_or_ge (discountedOf rows).length 4 with h1 | h1
  · rw [if_pos h1] at h
    cases h
  · rw [if_neg (by omega)] at h
    obtain ⟨r, _, heq⟩ := List.mem_filterMap.1 h
    by_cases hgate : defaultConfig.min_confidence ≤ min (0.5 +
        (if 0 < iqrOf rows then
          (dval r - iqrUpperBound defaultConfig rows) / iqrOf rows
        else 0) * 0.2) 1
    · rw [if_pos hgate] at heq
      rw [← Option.some.inj heq]
      exact ⟨hgate, min_le_right _ _⟩
    · rw [if_neg hgate] at heq
      cases heq

/-- Fake-discount findings under the default configuration sit in
[0.6, 1]. -/
lemma fake_confidence_bound {rows : List Row} {f : AnomalyResult}
    (h : f ∈ fakeDiscountAnomalies defaultConfig rows) :
    0.6 ≤ f.confidence_score ∧ f.confidence_score ≤ 1 := by
  obtain ⟨r, _, heq⟩ := List.mem_filterMap.1 h
  by_cases hskip : falsy r.current_price ∨ falsy r.original_price ∨
      r.discount_percentage = some 0
  · rw [if_pos hskip] at heq
    cases heq
  · rw [if_neg hskip] at heq
    by_cases hgate : defaultConfig.min_confidence ≤ fakeConfidence rows r
    · rw [if_pos hgate] at heq
      rw [← Option.some.inj heq]
      exact ⟨le_min hgate (by norm_num), min_le_right _ _⟩
    · rw [if_neg hgate] at heq
      cases heq

/-- Too-good-to-be-true findings under the default configuration sit in
[0.6, 1]. -/
lemma tgtbt_confidence_bound {rows : List Row} {f : AnomalyResult}
    (h : f ∈ tgtbtAnomalies defaultConfig rows) :
    0.6 ≤ f.confidence_score ∧ f.confidence_score ≤ 1 := by
  obtain ⟨r, _, heq⟩ := List.mem_filterMap.1 h
  by_cases hskip : falsy r.current_price ∨ r.discount_percentage = some 0
  · rw [if_pos hskip] at heq
    cases heq
  · rw [if_neg hskip] at heq
    by_cases hgate : defaultConfig.min_confidence ≤ tgtbtScore r
    · rw [if_pos hgate] at heq
      rw [← Option.some.inj heq]
      exact ⟨le_min hgate (by norm_num), min_le_right _ _⟩
    · rw [if_neg hgate] at heq
      cases heq

/-- Price-manipulation findings sit in [0.65, 1], so in [0.6, 1]. -/
lemma manipulation_confidence_bound {rows : List Row} {f : AnomalyResult}
    (h : f ∈ manipulationAnomalies defaultConfig rows) :
    0.6 ≤ f.confidence_score ∧ f.confidence_score ≤ 1 := by
  obtain ⟨r, _, heq⟩ := List.mem_filterMap.1 h
  by_cases hskip : falsy r.current_price ∨ falsy r.original_price ∨
      r.discount_percentage = some 0
  · rw [if_pos hskip] at heq
    cases heq
  · rw [if_neg hskip] at heq
    by_cases hgate : (0.25 : ℝ) ≤ manipulationScore r
    · rw [if_pos hgate] at heq
      rw [← Option.some.inj heq]
      refine ⟨le_min (by linarith) (by norm_num), min_le_right _ _⟩
    · rw [if_neg hgate] at heq
      cases heq

/-- Claim C10 (confirmed): under the default configuration every finding
returned by `detect_anomalies` has a confidence score in [0.6, 1] — every
detector gates on the 0.6 minimum confidence (the manipulation detector's
0.25 raw gate plus its +0.4 base exceeds it) and clamps at 1, and
deduplication and sorting only keep detector-produced findings. -/
theorem C10_confidence_bounds (rows : List Row) (f : AnomalyResult)
    (h : f ∈ detectAnomalies defaultConfig rows) :
    0.6 ≤ f.confidence_score ∧ f.confidence_score ≤ 1 := by
  unfold detectAnomalies at h
  split_ifs at h
  · cases h
  · have h2 := mem_deduplicate ((perm_sortByConfidence _).mem_iff.1 h)
    rcases List.mem_append.1 h2 with h3 | h3
    rotate_left
    · exact manipulation_confidence_bound h3
    rcases List.mem_append.1 h3 with h4 | h4
    rotate_left
    · exact tgtbt_confidence_bound h4
    rcases List.mem_append.1 h4 with h5 | h5
    rotate_left
    · exact fake_confidence_bound h5
    rcases List.mem_append.1 h5 with h6 | h6
    · exact zscore_confidence_bound h6
    · exact iqr_confidence_bound h6

/-- `6000 % 100 == 0` in Python float arithmetic. -/
lemma pymod_6000_100 : pymod 6000 100 = 0 := by
  rw [pymod, show (6000 : ℝ) / 100 = 60 by norm_num,
    show ⌊(60 : ℝ)⌋ = 60 by norm_num]
  norm_num

/-- `95 % 10 == 5` in Python float arithmetic. -/
lemma pymod_95_10 : pymod 95 10 = 5 := by
  rw [pymod, show (95 : ℝ) / 10 = 9.5 by norm_num,
    show ⌊(9.5 : ℝ)⌋ = 9 by norm_num]
  norm_num

/-- `6000 % 1 == 0`. -/
lemma pymod_6000_1 : pymod 6000 1 = 0 := by
  rw [pymod, show (6000 : ℝ) / 1 = 6000 by norm_num,
    show ⌊(6000 : ℝ)⌋ = 6000 by norm_num]
  norm_num

/-- `100 % 1 == 0`. -/
lemma pymod_100_1 : pymod 100 1 = 0 := by
  rw [pymod, show (100 : ℝ) / 1 = 100 by norm_num,
    show ⌊(100 : ℝ)⌋ = 100 by norm_num]
  norm_num

/-- The fake-discount suspicion of a `genRow` record is only the 0.15 of its
round original price (category indicators are skipped: no category). -/
lemma fakeConfidence_genRow (rows : List Row) (i : Option ℕ) (n : String) :
    fakeConfidence rows (genRow i n) = 0.15 := by
  have h1 : fakeRoundOriginal (genRow i n) = 0.15 := by
    have hc : otest (genRow i n).original_price
        fun o => 100 ≤ o ∧ pymod o 100 = 0 :=
      ⟨by norm_num, pymod_6000_100⟩
    rw [fakeRoundOriginal, if_pos hc]
  have h2 : fakeRoundDiscount (genRow i n) = 0 := by
    have hc : ¬otest (genRow i n).discount_percentage
        fun d => pymod d 10 = 0 ∧ 50 ≤ d := by
      intro hcon
      have h5 : pymod (95 : ℝ) 10 = 0 := hcon.1
      rw [pymod_95_10] at h5
      norm_num at h5
    rw [fakeRoundDiscount, if_neg hc]
  have h3 : fakeAboveCategoryMedian rows (genRow i n) = 0 := rfl
  have h4 : fakeAveragePrice rows (genRow i n) = 0 := by
    have hc60 : otest (genRow i n).discount_percentage (60 ≤ ·) := by
      show (60 : ℝ) ≤ 95
      norm_num
    have hempty : categoryRows rows (genRow i n).category = [] := rfl
    rw [fakeAveragePrice, if_pos hc60, if_neg (by rw [hempty]; norm_num)]
  rw [fakeConfidence, h1, h2, h3, h4]
  norm_num

/-- The Python-truthiness guard never skips a `genRow` record. -/
lemma genRow_not_skipped (i : Option ℕ) (n : String) :
    ¬(falsy (genRow i n).current_price ∨ falsy (genRow i n).original_price ∨
      (genRow i n).discount_percentage = some 0) := by
  intro hcon
  rcases hcon with h | h | h
  · exact absurd (Option.some.inj h) (by norm_num)
  · exact absurd (Option.some.inj h) (by norm_num)
  · exact absurd (Option.some.inj h) (by norm_num)

/-- The fake-discount detector is silent on a two-`genRow` batch (0.15 is
below the gate). -/
lemma fakeDiscountAnomalies_pair (i j : Option ℕ) (n1 n2 : String) :
    fakeDiscountAnomalies defaultConfig [genRow i n1, genRow j n2] = [] := by
  refine List.filterMap_eq_nil_iff.2 ?_
  intro r hr
  have hcase : r = genRow i n1 ∨ r = genRow j n2 := by simpa using hr
  have key : ∀ (k : Option ℕ) (m : String),
      (if falsy (genRow k m).current_price ∨
          falsy (genRow k m).original_price ∨
          (genRow k m).discount_percentage = some 0 then none
       else if defaultConfig.min_confidence ≤
          fakeConfidence [genRow i n1, genRow j n2] (genRow k m) then
         some (mkFinding "FAKE_DISCOUNT"
           (min (fakeConfidence [genRow i n1, genRow j n2] (genRow k m)) 1)
           (genRow k m))
       else none) = none := by
    intro k m
    rw [if_neg (genRow_not_skipped k m), if_neg]
    rw [fakeConfidence_genRow]
    rw [show defaultConfig.min_confidence = 0.6 from rfl]
    norm_num
  rcases hcase with h | h <;> subst h
  · exact key i n1
  · exact key j n2

/-- The too-good-to-be-true score of a `genRow` record: 0.40 for the 95%
discount plus 0.25 for savings of 5900. -/
lemma tgtbtScore_genRow (i : Option ℕ) (n : String)
    (hb : ¬brandHit (some n)) : tgtbtScore (genRow i n) = 0.65 := by
  simp only [tgtbtScore, genRow, otest]
  norm_num [hb]

/-- The too-good-to-be-true detector flags both records of a two-`genRow`
batch with confidence 0.65. -/
lemma tgtbtAnomalies_pair (i j : Option ℕ) (n1 n2 : String)
    (hb1 : ¬brandHit (some n1)) (hb2 : ¬brandHit (some n2)) :
    tgtbtAnomalies defaultConfig [genRow i n1, genRow j n2] =
      [genFinding n1, genFinding n2] := by
  have key : ∀ (k : Option ℕ) (m : String), ¬brandHit (some m) →
      (if falsy (genRow k m).current_price ∨
          (genRow k m).discount_percentage = some 0 then none
       else if defaultConfig.min_confidence ≤ tgtbtScore (genRow k m) then
         some (mkFinding "TOO_GOOD_TO_BE_TRUE"
           (min (tgtbtScore (genRow k m)) 1) (genRow k m))
       else none) = some (genFinding m) := by
    intro k m hb
    have hskip : ¬(falsy (genRow k m).current_price ∨
        (genRow k m).discount_percentage = some 0) := by
      intro hcon
      rcases hcon with h | h
      · exact absurd (Option.some.inj h) (by norm_num)
      · exact absurd (Option.some.inj h) (by norm_num)
    have hgate : defaultConfig.min_confidence ≤ tgtbtScore (genRow k m) := by
      rw [tgtbtScore_genRow k m hb,
        show defaultConfig.min_confidence = 0.6 from rfl]
      norm_num
    rw [if_neg hskip, if_pos hgate, tgtbtScore_genRow k m hb,
      min_eq_left (by norm_num)]
    rfl
  simp only [tgtbtAnomalies, List.filterMap_cons, List.filterMap_nil]
  rw [key i n1 hb1, key j n2 hb2]

/-- The manipulation score of a `genRow` record is zero. -/
lemma manipulationScore_genRow (i : Option ℕ) (n : String) :
    manipulationScore (genRow i n) = 0 := by
  simp only [manipulationScore, genRow, otest]
  norm_num [pymod_6000_1, pymod_100_1]

/-- The price-manipulation detector is silent on a two-`genRow` batch. -/
lemma manipulationAnomalies_pair (i j : Option ℕ) (n1 n2 : String) :
    manipulationAnomalies defaultConfig [genRow i n1, genRow j n2] = [] := by
  refine List.filterMap_eq_nil_iff.2 ?_
  intro r hr
  have hcase : r = genRow i n1 ∨ r = genRow j n2 := by simpa using hr
  have key : ∀ (k : Option ℕ) (m : String),
      (if falsy (genRow k m).current_price ∨
          falsy (genRow k m).original_price ∨
          (genRow k m).discount_percentage = some 0 then none
       else if (0.25 : ℝ) ≤ manipulationScore (genRow k m) then
         some (mkFinding "PRICE_MANIPULATION"
           (min (manipulationScore (genRow k m) + 0.4) 1) (genRow k m))
       else none) = none := by
    intro k m
    rw [if_neg (genRow_not_skipped k m), if_neg]
    rw [manipulationScore_genRow]
    norm_num
  rcases hcase with h | h <;> subst h
  · exact key i n1
  · exact key j n2

/-- The Z-score detector never fires on fewer than 3 records. -/
lemma zscoreAnomalies_short (cfg : Config) (rows : List Row)
    (h : rows.length < 3) : zscoreAnomalies cfg rows = [] := by
  simp only [zscoreAnomalies]
  rw [if_pos (show (discountedOf rows).length < 3 from
    lt_of_le_of_lt (List.length_filter_le _ _) h)]

/-- The IQR detector never fires on fewer than 4 records. -/
lemma iqrAnomalies_short (cfg : Config) (rows : List Row)
    (h : rows.length < 4) : iqrAnomalies cfg rows = [] := by
  simp only [iqrAnomalies]
  rw [if_pos (show (discountedOf rows).length < 4 from
    lt_of_le_of_lt (List.length_filter_le _ _) h)]

/-- Deduplication keeps both of two distinct-name findings. -/
lemma dedup_pair (f g : AnomalyResult) (h : f.product_name ≠ g.product_name) :
    deduplicateAnomalies [f, g] = [f, g] := by
  simp only [deduplicateAnomalies, List.foldl]
  rw [show dedupStep [] f = [f] from by rw [dedupStep, if_neg (by simp)]; rfl]
  rw [show dedupStep [f] g = [f, g] from by
    rw [dedupStep, if_neg (by simp [beq_iff_eq, h])]
    rfl]

/-- The stable sort keeps two findings in order when the second's confidence
does not exceed the first's. -/
lemma sort_pair (f g : AnomalyResult)
    (h : g.confidence_score ≤ f.confidence_score) :
    sortByConfidence [f, g] = [f, g] := by
  simp only [sortByConfidence, List.foldl]
  rw [show insertByConfidence f [] = [f] from rfl]
  rw [show insertByConfidence g [f] = [f, g] from by
    rw [insertByConfidence, if_pos h]; rfl]

/-- Full run of `detect_anomalies` on a two-`genRow` batch: only the
too-good-to-be-true detector fires, once per record, at confidence 0.65;
deduplication (different names) and the stable sort (equal confidence) keep
both findings in input order. -/
lemma detect_pair_eval (i j : Option ℕ) (n1 n2 : String)
    (hb1 : ¬brandHit (some n1)) (hb2 : ¬brandHit (some n2))
    (hne : n1 ≠ n2) :
    detectAnomalies defaultConfig [genRow i n1, genRow j n2] =
      [genFinding n1, genFinding n2] := by
  rw [detectAnomalies, if_neg (by simp)]
  rw [zscoreAnomalies_short _ _ (by norm_num),
    iqrAnomalies_short _ _ (by norm_num),
    fakeDiscountAnomalies_pair i j n1 n2,
    tgtbtAnomalies_pair i j n1 n2 hb1 hb2,
    manipulationAnomalies_pair i j n1 n2]
  rw [show (([] : List AnomalyResult) ++ [] ++ [] ++
      [genFinding n1, genFinding n2] ++ []) =
      [genFinding n1, genFinding n2] by simp]
  rw [dedup_pair _ _ (by simpa [genFinding] using hne)]
  rw [sort_pair (genFinding n1) (genFinding n2) (le_of_eq
    (show (genFinding n2).confidence_score =
      (genFinding n1).confidence_score from rfl))]

/-- Counterexample for C2: in `dfDup` the two records share product id 7 but
carry different display names, and the deduplicated output keeps BOTH their
findings — the dict of `_deduplicate_anomalies` is keyed on `product_name`,
so the output is not unique per `product_id`. -/
theorem C2_counterexample :
    detectAnomalies defaultConfig dfDup = [genFinding "a", genFinding "b"] ∧
    genFinding "a" ≠ genFinding "b" ∧
    rowDupA.external_id = some 7 ∧ rowDupB.external_id = some 7 ∧
    rowDupA.name = some (genFinding "a").product_name ∧
    rowDupB.name = some (genFinding "b").product_name := by
  refine ⟨?_, ?_, rfl, rfl, rfl, rfl⟩
  · show detectAnomalies defaultConfig
      [genRow (some 7) "a", genRow (some 7) "b"] = _
    exact detect_pair_eval (some 7) (some 7) "a" "b"
      (by simp only [brandHit]; decide) (by simp only [brandHit]; decide)
      (by decide)
  · intro hcon
    have h := congrArg AnomalyResult.product_name hcon
    simp [genFinding] at h

/-- Counterexample for C3: in `dfTie` both findings have confidence 0.65,
yet they are returned with product id 2 (name "b") before product id 1
(name "a") — equal-confidence ties keep detector order, not ascending
product id. -/
theorem C3_counterexample :
    detectAnomalies defaultConfig dfTie = [genFinding "b", genFinding "a"] ∧
    (genFinding "b").confidence_score = (genFinding "a").confidence_score ∧
    rowTieB.name = some (genFinding "b").product_name ∧
    rowTieA.name = some (genFinding "a").product_name ∧
    rowTieB.external_id = some 2 ∧ rowTieA.external_id = some 1 := by
  refine ⟨?_, rfl, rfl, rfl, rfl, rfl⟩
  show detectAnomalies defaultConfig
    [genRow (some 2) "b", genRow (some 1) "a"] = _
  exact detect_pair_eval (some 2) (some 1) "b" "a"
    (by simp only [brandHit]; decide) (by simp only [brandHit]; decide)
    (by decide)

/-- Witness for C10: the finding the pipeline returns for record "a" of
`dfDup` has its confidence inside [0.6, 1]. -/
theorem C10_witness :
    0.6 ≤ (genFinding "a").confidence_score ∧
    (genFinding "a").confidence_score ≤ 1 := by
  refine C10_confidence_bounds dfDup (genFinding "a") ?_
  show genFinding "a" ∈ detectAnomalies defaultConfig
    [genRow (some 7) "a", genRow (some 7) "b"]
  rw [detect_pair_eval (some 7) (some 7) "a" "b"
    (by simp only [brandHit]; decide) (by simp only [brandHit]; decide)
    (by decide)]
  exact List.mem_cons_self _ _

/-- When every required column is already present, the column-filling loop
of `analyze_discounts` changes nothing. -/
lemma ensureColumns_of_contains (df : DataFrame)
    (h : ∀ c ∈ requiredColumns, c ∈ df.cols) : ensureColumns df = df := by
  rcases df with ⟨cols, rows⟩
  simp only [ensureColumns]
  have hfil : requiredColumns.filter (fun c => !cols.contains c) = [] := by
    refine List.filter_eq_nil_iff.2 ?_
    intro c hc
    have hm : c ∈ cols := h c hc
    simp [hm]
  have hrow : ∀ r : Row, scrubRow cols r = r := by
    intro r
    have h1 : "external_id" ∈ cols := h _ (by simp [requiredColumns])
    have h2 : "name" ∈ cols := h _ (by simp [requiredColumns])
    have h3 : "regular_price" ∈ cols := h _ (by simp [requiredColumns])
    have h4 : "sale_price" ∈ cols := h _ (by simp [requiredColumns])
    have h5 : "discount_percentage" ∈ cols := h _ (by simp [requiredColumns])
    rw [scrubRow, if_pos h1, if_pos h2, if_pos h3, if_pos h4, if_pos h5]
  rw [hfil, List.append_nil,
    show rows.map (scrubRow cols) = rows.map id from
      List.map_congr_left fun r _ => hrow r,
    List.map_id]

/-- Claim C9 (amended): when the batch already has all required columns,
`analyze_discounts` leaves the input DataFrame unchanged (and the anomaly
detector never writes to its input); when a required column is missing,
`df[col] = None` adds it to the caller's frame — see the counterexample. -/
theorem C9_no_input_mutation (df : DataFrame)
    (h : ∀ c ∈ requiredColumns, c ∈ df.cols) :
    (analyzeDiscounts df).1 = df := by
  show ensureColumns df = df
  exact ensureColumns_of_contains df h

/-- Witness for C9: on `dfNeg`, whose column list is exactly the required
columns, the analysis returns the input frame untouched. -/
theorem C9_witness : (analyzeDiscounts dfNeg).1 = dfNeg :=
  C9_no_input_mutation dfNeg fun _ hc => hc

/-- Counterexample for C9: `dfMissing` has no `external_id` column, and
`analyze_discounts` adds it to the caller's DataFrame (the
`df[col] = None` loop runs before any copy), so the input is mutated. -/
theorem C9_counterexample : (analyzeDiscounts dfMissing).1 ≠ dfMissing := by
  intro hcon
  exact absurd (congrArg (fun d => d.cols.length) hcon) (by decide)

/-- Python `round` of a nonpositive value is nonpositive. -/
lemma pyRoundInt_nonpos (y : ℝ) (hy : y ≤ 0) : pyRoundInt y ≤ 0 := by
  rw [pyRoundInt]
  have hfl : ⌊y⌋ ≤ 0 := Int.floor_nonpos hy
  split_ifs with h1 h2 h3
  · exact hfl
  · have hc : (⌊y⌋ : ℝ) < -(1 / 2) := by
      rw [Int.fract] at h2
      linarith
    have hcast : (⌊y⌋ : ℝ) < 0 := lt_trans hc (by norm_num)
    have hneg : ⌊y⌋ < 0 := by exact_mod_cast hcast
    omega
  · exact hfl
  · have heq : Int.fract y = 1 / 2 := le_antisymm (not_lt.1 h2) (not_lt.1 h1)
    have hc : (⌊y⌋ : ℝ) ≤ -(1 / 2) := by
      rw [Int.fract] at heq
      linarith
    have hcast : (⌊y⌋ : ℝ) < 0 := lt_of_le_of_lt hc (by norm_num)
    have hneg : ⌊y⌋ < 0 := by exact_mod_cast hcast
    omega

/-- `round(x, 2)` of a nonpositive value is nonpositive. -/
lemma pyRound2_nonpos (x : ℝ) (hx : x ≤ 0) : pyRound2 x ≤ 0 := by
  rw [pyRound2]
  apply div_nonpos_of_nonpos_of_nonneg _ (by norm_num)
  exact_mod_cast pyRoundInt_nonpos (x * 100) (by linarith)

/-- `Series.max` of a list of nonpositive values is nonpositive. -/
lemma listMax_nonpos (xs : List ℝ) (h : ∀ x ∈ xs, x ≤ 0) : listMax xs ≤ 0 := by
  rcases xs with _ | ⟨a, t⟩
  · exact le_refl 0
  · rw [listMax]
    have key : ∀ (l : List ℝ) (acc : ℝ), acc ≤ 0 → (∀ x ∈ l, x ≤ 0) →
        l.foldl max acc ≤ 0 := by
      intro l
      induction l with
      | nil => exact fun acc hacc _ => hacc
      | cons b bs ih =>
        intro acc hacc hl
        rw [List.foldl_cons]
        exact ih _ (max_le hacc (hl b (List.mem_cons_self b bs)))
          fun x hx => hl x (List.mem_cons_of_mem _ hx)
    exact key t a (h a (List.mem_cons_self a t))
      fun x hx => h x (List.mem_cons_of_mem _ hx)

/-- Claim C8 (amended): on a non-empty batch whose records (after
column-filling and metric derivation) have no positive discount, the
analysis reports `average_discount = 0`, a `max_discount` that is at most 0
(it equals the rounded maximum of the stored discounts, so it is negative —
not 0 — when all stored discounts are; see the counterexample), and a
distribution with every fixed bucket present at count zero.  The summary
carries no `median_discount` field at all. -/
theorem C8_zero_discount_summary (df : DataFrame) (_hne : df.rows ≠ [])
    (h : ∀ r ∈ (ensureColumns df).rows.map withMetrics, ¬discountPos r) :
    (analyzeDiscounts df).2.average_discount = 0 ∧
    (analyzeDiscounts df).2.max_discount ≤ 0 ∧
    (analyzeDiscounts df).2.discount_distribution =
      [("0-10%", 0), ("10-25%", 0), ("25-50%", 0), ("50-75%", 0),
        ("75-90%", 0), ("90-100%", 0)] := by
  have hdisc : ((ensureColumns df).rows.map withMetrics).filter
      (fun r => decide (discountPos r)) = [] := by
    refine List.filter_eq_nil_iff.2 ?_
    intro r hr
    simpa using h r hr
  have hdle : ∀ r ∈ (ensureColumns df).rows.map withMetrics,
      ∀ d : ℝ, r.discount_percentage = some d → d ≤ 0 := by
    intro r hr d hd
    have := h r hr
    rw [discountPos, hd] at this
    exact le_of_not_lt this
  refine ⟨?_, ?_, ?_⟩
  · simp only [analyzeDiscounts]
    rw [hdisc]
    simp
  · simp only [analyzeDiscounts]
    rcases hp : ((ensureColumns df).rows.map withMetrics).filterMap
        Row.discount_percentage with _ | ⟨a, t⟩
    · simp
    · have hall : ∀ x ∈ (a :: t), x ≤ 0 := by
        intro x hx
        rw [← hp] at hx
        obtain ⟨r, hr, hrd⟩ := List.mem_filterMap.1 hx
        exact hdle r hr x hrd
      rw [if_neg (by simp)]
      exact pyRound2_nonpos _ (listMax_nonpos _ hall)
  · simp only [analyzeDiscounts]
    have hbucket : ∀ (lo hi : ℝ), 0 ≤ lo →
        (((ensureColumns df).rows.map withMetrics).filter fun r =>
          decide (otest r.discount_percentage fun d => lo < d ∧ d ≤ hi))
          = [] := by
      intro lo hi hlo
      refine List.filter_eq_nil_iff.2 ?_
      intro r hr
      rw [decide_eq_true_eq]
      intro hcon
      rcases hd : r.discount_percentage with _ | d
      · rw [hd] at hcon
        exact hcon
      · have h1 : lo < d ∧ d ≤ hi := by
          rw [hd] at hcon
          exact hcon
        have h2 : d ≤ 0 := hdle r hr d hd
        linarith [h1.1]
    simp only [discountDistribution, discountBuckets, List.map_cons,
      List.map_nil]
    rw [hbucket 0 10 (by norm_num), hbucket 10 25 (by norm_num),
      hbucket 25 50 (by norm_num), hbucket 50 75 (by norm_num),
      hbucket 75 90 (by norm_num), hbucket 90 100 (by norm_num)]
    rfl

/-- Witness for C8: `dfZero` (one zero-discount record, one record with no
discount and no prices) has no discounted record, and the summary is all
zeros with every bucket present. -/
theorem C8_witness :
    (analyzeDiscounts dfZero).2.average_discount = 0 ∧
    (analyzeDiscounts dfZero).2.max_discount ≤ 0 ∧
    (analyzeDiscounts dfZero).2.discount_distribution =
      [("0-10%", 0), ("10-25%", 0), ("25-50%", 0), ("50-75%", 0),
        ("75-90%", 0), ("90-100%", 0)] := by
  refine C8_zero_discount_summary dfZero (by simp [dfZero]) ?_
  intro r hr
  have hmets : (ensureColumns dfZero).rows.map withMetrics =
      [rowZeroDisc, rowNoDisc] := by
    rw [ensureColumns_of_contains dfZero fun _ hc => hc]
    rfl
  rw [hmets] at hr
  have hcase : r = rowZeroDisc ∨ r = rowNoDisc := by simpa using hr
  rcases hcase with h | h <;> subst h
  · exact lt_irrefl 0
  · exact id

/-- Counterexample for C8: `dfNeg` is a non-empty batch with no positive
discount, yet `max_discount` is -5, not the 0 the claim requires — the max
is taken over all stored discounts, including negative ones. -/
theorem C8_counterexample :
    dfNeg.rows ≠ [] ∧
    (∀ r ∈ dfNeg.rows, ∀ d : ℝ, r.discount_percentage = some d → d < 0) ∧
    (analyzeDiscounts dfNeg).2.max_discount = -5 := by
  refine ⟨by simp [dfNeg], ?_, ?_⟩
  · intro r hr d hd
    have hrn : r = rowNeg := by simpa [dfNeg] using hr
    subst hrn
    have h5 : (-5 : ℝ) = d := Option.some.inj hd
    rw [← h5]
    norm_num
  · have hmets : (ensureColumns dfNeg).rows.map withMetrics = [rowNeg] := by
      rw [ensureColumns_of_contains dfNeg fun _ hc => hc]
      rfl
    simp only [analyzeDiscounts, hmets]
    rw [show ([rowNeg].filterMap Row.discount_percentage) = [(-5 : ℝ)]
      from rfl]
    rw [if_neg (by simp)]
    rw [show listMax [(-5 : ℝ)] = -5 from rfl]
    rw [pyRound2, show ((-5 : ℝ) * 100) = ((-500 : ℤ) : ℝ) by norm_num]
    rw [pyRoundInt, Int.fract_intCast, if_pos (by norm_num),
      Int.floor_intCast]
    norm_num

end Bilka
